import Mathlib

/-!
# Legendaryum: identity and task access control

A shallow embedding of the Go service `legendaryum` (packages `pkg/models`,
`pkg/utils`, `internal/auth`, `internal/tasks`, `internal/middleware`) and
theorems about its authorization rules, its token service, its registration
and login flows and its origin predicates.

Conventions of the embedding:

* Go strings are Lean `String`s; `len` is the UTF-8 byte length (`goLen`).
* `time.Time` is an integer count of nanoseconds from the zero time.
* The `*gorm.DB` handle is an explicit `Store` that every handler receives and
  returns; a handler is a function to `Response × Store`.
* Every database call of a handler can also fail for reasons outside the
  data (connection loss, a constraint of the migration files); `Faults`
  says which calls do, by the position of the call in the handler's text.
* A JSON body built from a `fiber.Map` is a constructor of `Body` per set of
  keys, holding the values.
* A pattern of package regexp is a `RegularExpression Char` of Mathlib with a
  flag for the end mark; `MatchString` runs its derivative matcher `rmatch`.
-/

namespace Legendaryum

/-! ## pkg/models -/

/-- Go `time.Time`: nanoseconds from the zero time; `0` is the value for which `IsZero` holds. -/
abbrev Time := Int

/-- The struct `models.User`, which is also a row of the `users` table. -/
structure User where
  ID : String
  FirstName : String
  LastName : String
  Email : String
  PasswordHash : String
  CreatedAt : Time
  UpdatedAt : Time
deriving DecidableEq

/-- The zero value of `models.User`. -/
def User.zero : User := ⟨"", "", "", "", "", 0, 0⟩

/-- The struct `models.Task`, with its two association fields `Creator` and `Assignee`. -/
structure Task where
  ID : Nat
  Title : String
  Description : String
  Status : String
  Priority : String
  DueDate : Time
  CreatorID : String
  AssigneeID : String
  Creator : User
  Assignee : User
  CreatedAt : Time
  UpdatedAt : Time
deriving DecidableEq

/-- A row of the `tasks` table: the columns of `models.Task`, without the associations. -/
structure TaskRow where
  ID : Nat
  Title : String
  Description : String
  Status : String
  Priority : String
  DueDate : Time
  CreatorID : String
  AssigneeID : String
  CreatedAt : Time
  UpdatedAt : Time
deriving DecidableEq

/-- The struct `models.TaskRequest`, the decoded body of create and update requests. -/
structure TaskRequest where
  Title : String
  Description : String
  Status : String
  Priority : String
  DueDate : Time
  AssigneeID : String
deriving DecidableEq

/-- The struct `models.RegisterRequest`. -/
structure RegisterRequest where
  FirstName : String
  LastName : String
  Email : String
  Password : String
deriving DecidableEq

/-- The struct `models.LoginRequest`. -/
structure LoginRequest where
  Email : String
  Password : String
deriving DecidableEq

/-- The fields of `config.Config` that the handlers read. -/
structure Config where
  Port : String
  JWTSecret : String
  JWTExpiry : String
  DBHost : String
  DBPort : String
  DBUser : String
  DBPass : String
  DBName : String
deriving DecidableEq

/-! ## Byte strings, crypto/hmac -/

/-- Byte slices; every element is below 256. -/
abbrev Bytes := List Nat

/-- The UTF-8 encoding of one character. -/
def utf8EncodeChar (c : Char) : Bytes :=
  let v := c.toNat
  if v ≤ 0x7f then [v]
  else if v ≤ 0x7ff then [0xc0 + v / 64, 0x80 + v % 64]
  else if v ≤ 0xffff then [0xe0 + v / 4096, 0x80 + (v / 64) % 64, 0x80 + v % 64]
  else [0xf0 + v / 262144, 0x80 + (v / 4096) % 64, 0x80 + (v / 64) % 64, 0x80 + v % 64]

/-- The conversion `[]byte(s)` of a Go string. -/
def utf8 (s : String) : Bytes :=
  s.data.flatMap utf8EncodeChar

/-- The Go builtin `len(s)` on a string: its length in bytes. -/
def goLen (s : String) : Nat :=
  (utf8 s).length

/-- The hash functions behind the HMAC signing methods. -/
inductive HashAlg where
  | SHA256
  | SHA384
  | SHA512
deriving DecidableEq

/-- The block size in bytes of each hash function (`hash.Hash.BlockSize`). -/
def HashAlg.blockSize : HashAlg → Nat
  | .SHA256 => 64
  | .SHA384 => 128
  | .SHA512 => 128

/-- What the standard library and the JWT library contribute and the embedding keeps
abstract: the digests, the serialisation of a token's first two segments, and the one
floating-point step of `time.ParseDuration`. -/
structure Lib where
  /-- The digest of a byte string under each hash function. -/
  sum : HashAlg → Bytes → Bytes
  /-- The signing string of a token, `signingString alg userID exp iat`: the base64url JSON
  header with that "alg", a dot, the base64url JSON claims with those three values. -/
  signingString : String → String → Option Int → Option Int → Bytes
  /-- The value `uint64(float64(f) * (float64(unit) / scale))` of `time.ParseDuration`. -/
  fracNanos : Nat → Nat → Nat → Nat

/-- The key block of `hmac.New`: a key longer than the block is hashed first, then the key
is padded with zero bytes to the block size. -/
def hmacKeyBlock (lib : Lib) (h : HashAlg) (key : Bytes) : Bytes :=
  let k := if key.length > h.blockSize then lib.sum h key else key
  k ++ List.replicate (h.blockSize - k.length) 0

/-- The HMAC of `msg` under `key` (RFC 2104, `crypto/hmac`). -/
def hmacSum (lib : Lib) (h : HashAlg) (key : Bytes) (msg : Bytes) : Bytes :=
  let kb := hmacKeyBlock lib h key
  lib.sum h (kb.map (fun b => Nat.xor b 0x5c) ++ lib.sum h (kb.map (fun b => Nat.xor b 0x36) ++ msg))

/-! ## time.ParseDuration -/

/-- Whether a byte is an ASCII digit. -/
def isDigit (c : Char) : Bool :=
  decide ('0' ≤ c) && decide (c ≤ '9')

/-- The helper `leadingInt` of package time: the leading digits of `s` as a number, and the
rest; `none` is the overflow error. -/
def leadingInt : List Char → Nat → Option (Nat × List Char)
  | [], x => some (x, [])
  | c :: cs, x =>
    if !isDigit c then some (x, c :: cs)
    else if x > 2 ^ 63 / 10 then none
    else
      let x1 := x * 10 + (c.toNat - '0'.toNat)
      if x1 > 2 ^ 63 then none else leadingInt cs x1

/-- The helper `leadingFraction` of package time: the leading digits of `s` as a number `x`
with its scale (value `x / scale`), and the rest; digits past the overflow are skipped. -/
def leadingFraction : List Char → Nat → Nat → Bool → Nat × Nat × List Char
  | [], x, scale, _ => (x, scale, [])
  | c :: cs, x, scale, overflow =>
    if !isDigit c then (x, scale, c :: cs)
    else if overflow then leadingFraction cs x scale true
    else if x > (2 ^ 63 - 1) / 10 then leadingFraction cs x scale true
    else
      let y := x * 10 + (c.toNat - '0'.toNat)
      if y > 2 ^ 63 then leadingFraction cs x scale true
      else leadingFraction cs y (scale * 10) false

/-- The table `unitMap` of package time, in nanoseconds. -/
def unitMap (u : String) : Option Nat :=
  if u = "ns" then some 1
  else if u = "us" then some 1000
  else if u = "µs" then some 1000
  else if u = "μs" then some 1000
  else if u = "ms" then some 1000000
  else if u = "s" then some 1000000000
  else if u = "m" then some 60000000000
  else if u = "h" then some 3600000000000
  else none

/-- The loop of `time.ParseDuration` over the groups "number, optional fraction, unit"; `d`
is the sum so far as a uint64, `none` an error. Each round consumes at least one byte, so a
budget of one round per byte of the input is never exhausted. -/
def parseDurationLoop (lib : Lib) : Nat → List Char → Nat → Option Nat
  | 0, _, _ => none
  | _ + 1, [], d => some d
  | budget + 1, c :: cs, d =>
    if !(c == '.' || isDigit c) then none
    else
      match leadingInt (c :: cs) 0 with
      | none => none
      | some (v, s1) =>
        let pre := (c :: cs).length != s1.length
        let frac : Nat × Nat × List Char × Bool :=
          match s1 with
          | '.' :: rest =>
            let r := leadingFraction rest 0 1 false
            (r.1, r.2.1, r.2.2, rest.length != r.2.2.length)
          | _ => (0, 1, s1, false)
        let f := frac.1
        let scale := frac.2.1
        let s2 := frac.2.2.1
        let post := frac.2.2.2
        if !pre && !post then none
        else
          let u := s2.takeWhile (fun c => !(c == '.' || isDigit c))
          let s3 := s2.dropWhile (fun c => !(c == '.' || isDigit c))
          if u.isEmpty then none
          else
            match unitMap (String.mk u) with
            | none => none
            | some unit =>
              if v > 2 ^ 63 / unit then none
              else
                let v1 := v * unit
                let withFraction : Option Nat :=
                  if f > 0 then
                    let w := (v1 + lib.fracNanos f unit scale) % 2 ^ 64
                    if w > 2 ^ 63 then none else some w
                  else some v1
                match withFraction with
                | none => none
                | some v2 =>
                  let d1 := (d + v2) % 2 ^ 64
                  if d1 > 2 ^ 63 then none else parseDurationLoop lib budget s3 d1

/-- The function `time.ParseDuration`: the duration in nanoseconds, or `none` for an error. -/
def ParseDuration (lib : Lib) (s : String) : Option Int :=
  let signed : Bool × List Char :=
    match s.data with
    | '-' :: rest => (true, rest)
    | '+' :: rest => (false, rest)
    | cs => (false, cs)
  let neg := signed.1
  let body := signed.2
  if body = ['0'] then some 0
  else if body = [] then none
  else
    match parseDurationLoop lib (body.length + 1) body 0 with
    | none => none
    | some d =>
      if neg then some (-(d : Int))
      else if d > 2 ^ 63 - 1 then none
      else some (d : Int)

/-! ## github.com/golang-jwt/jwt/v5 and pkg/utils/jwt.go -/

/-- The struct `utils.Claims`: the user id and the embedded `jwt.RegisteredClaims`, whose
three dates are optional. -/
structure Claims where
  UserID : String
  Issuer : String
  Subject : String
  Audience : List String
  ExpiresAt : Option Time
  NotBefore : Option Time
  IssuedAt : Option Time
  ID : String
deriving DecidableEq

/-- The signing methods that the JWT library registers. -/
inductive SigningMethod where
  /-- The type `*jwt.SigningMethodHMAC`: HS256, HS384, HS512. -/
  | HMAC (h : HashAlg)
  /-- The type `*jwt.SigningMethodRSA`: RS256, RS384, RS512. -/
  | RSA (h : HashAlg)
  /-- The type `*jwt.SigningMethodRSAPSS`: PS256, PS384, PS512. -/
  | RSAPSS (h : HashAlg)
  /-- The type `*jwt.SigningMethodECDSA`: ES256, ES384, ES512. -/
  | ECDSA (h : HashAlg)
  /-- The type `*jwt.SigningMethodEd25519`: EdDSA. -/
  | Ed25519
  /-- The method "none". -/
  | unsecured
deriving DecidableEq

/-- The registry `signingMethods` of the JWT library: the methods by their "alg" name. -/
def signingMethods : List (String × SigningMethod) :=
  [("HS256", .HMAC .SHA256), ("HS384", .HMAC .SHA384), ("HS512", .HMAC .SHA512),
   ("RS256", .RSA .SHA256), ("RS384", .RSA .SHA384), ("RS512", .RSA .SHA512),
   ("PS256", .RSAPSS .SHA256), ("PS384", .RSAPSS .SHA384), ("PS512", .RSAPSS .SHA512),
   ("ES256", .ECDSA .SHA256), ("ES384", .ECDSA .SHA384), ("ES512", .ECDSA .SHA512),
   ("EdDSA", .Ed25519), ("none", .unsecured)]

/-- The registry lookup `jwt.GetSigningMethod(alg)`. -/
def GetSigningMethod (alg : String) : Option SigningMethod :=
  (signingMethods.find? (fun entry => entry.1 == alg)).map (fun entry => entry.2)

/-- A token string as `jwt.Parser` reads it. Either it does not split into three segments
whose header and claims decode (`malformed`), or it does: then `signingString` is the text
of its first two segments, `alg` the value of the header key "alg" when it is a string,
`claims` what the second segment decodes to, and `signature` what the third segment
decodes to when it is base64url. -/
inductive TokenString where
  | malformed
  | segments (signingString : Bytes) (alg : Option String) (claims : Claims)
      (signature : Option Bytes)
deriving DecidableEq

/-- Error kinds of the JWT library and of `ValidateJWT`. -/
inductive JWTError where
  /-- The error `jwt.ErrTokenMalformed`. -/
  | ErrTokenMalformed
  /-- The error `jwt.ErrTokenUnverifiable`: no usable signing method or the key function
  refused the token. -/
  | ErrTokenUnverifiable
  /-- The error `jwt.ErrTokenSignatureInvalid`. -/
  | ErrTokenSignatureInvalid
  /-- The error `jwt.ErrTokenInvalidClaims`, joined with `jwt.ErrTokenExpired` and
  `jwt.ErrTokenNotValidYet` as the flags say. -/
  | ErrTokenInvalidClaims (expired : Bool) (notValidYet : Bool)
  /-- An error that `ValidateJWT` makes itself with `errors.New`. -/
  | other (msg : String)
deriving DecidableEq

/-- The struct `jwt.Token` after parsing. -/
structure Token where
  Method : SigningMethod
  Claims : Claims
  Signature : Bytes
  Valid : Bool
deriving DecidableEq

/-- The constructor `jwt.NewNumericDate(t)`: the time truncated to `jwt.TimePrecision`,
one second. -/
def NewNumericDate (t : Time) : Time :=
  t - t % 1000000000

/-- The method `SigningMethod.Sign` with a byte-slice key: only the HMAC methods take
one. -/
def SigningMethod.Sign (lib : Lib) (m : SigningMethod) (signingString : Bytes) (key : Bytes) :
    Option Bytes :=
  match m with
  | .HMAC h => some (hmacSum lib h key signingString)
  | _ => none

/-- The method `SigningMethod.Verify` with a byte-slice key: an HMAC method recomputes the
tag and compares with `hmac.Equal`; the other methods reject such a key. -/
def SigningMethod.Verify (lib : Lib) (m : SigningMethod) (signingString : Bytes)
    (sig : Bytes) (key : Bytes) : Bool :=
  match m with
  | .HMAC h => sig == hmacSum lib h key signingString
  | _ => false

/-- The default `jwt.Validator.Validate` at time `now`: "exp" when present must be after
`now`, "nbf" when present must not be after `now`; "iat" is not checked. -/
def validateClaims (now : Time) (c : Claims) : Option JWTError :=
  let expired : Bool := match c.ExpiresAt with
    | some exp => !decide (now < exp)
    | none => false
  let notValidYet : Bool := match c.NotBefore with
    | some nbf => decide (now < nbf)
    | none => false
  if expired || notValidYet then some (.ErrTokenInvalidClaims expired notValidYet) else none

/-- The method `jwt.Parser.ParseWithClaims` with the default parser: `keyFunc` is the
callback that receives the token and returns the key, `now` the time of validation. -/
def ParseWithClaims (lib : Lib) (now : Time) (tokenString : TokenString)
    (keyFunc : Token → Option Bytes) : Except JWTError Token :=
  match tokenString with
  | .malformed => .error .ErrTokenMalformed
  | .segments signingString alg claims signature =>
    match alg with
    | none => .error .ErrTokenUnverifiable
    | some alg =>
      match GetSigningMethod alg with
      | none => .error .ErrTokenUnverifiable
      | some method =>
        match signature with
        | none => .error .ErrTokenMalformed
        | some sig =>
          let token : Token := { Method := method, Claims := claims, Signature := sig, Valid := false }
          match keyFunc token with
          | none => .error .ErrTokenUnverifiable
          | some key =>
            if !method.Verify lib signingString sig key then .error .ErrTokenSignatureInvalid
            else
              match validateClaims now claims with
              | some err => .error err
              | none => .ok { token with Valid := true }

/-- The function `utils.GenerateJWT`: `now` and `now'` are the two readings of `time.Now()`,
for "exp" and for "iat". An `Except.error` is a returned error together with the empty
token string. -/
def GenerateJWT (lib : Lib) (now : Time) (now' : Time) (userID : String) (secret : String)
    (expiry : String) : Except String TokenString :=
  match ParseDuration lib expiry with
  | none => .error "time: invalid duration"
  | some duration =>
    let claims : Claims :=
      { UserID := userID, Issuer := "", Subject := "", Audience := [],
        ExpiresAt := some (NewNumericDate (now + duration)), NotBefore := none,
        IssuedAt := some (NewNumericDate now'), ID := "" }
    let signingString := lib.signingString "HS256" userID claims.ExpiresAt claims.IssuedAt
    match (SigningMethod.HMAC .SHA256).Sign lib signingString (utf8 secret) with
    | none => .error "key is of invalid type"
    | some sig => .ok (.segments signingString (some "HS256") claims (some sig))

/-- The function `utils.ValidateJWT` at time `now`. -/
def ValidateJWT (lib : Lib) (now : Time) (tokenString : TokenString) (secret : String) :
    Except JWTError Claims :=
  match ParseWithClaims lib now tokenString (fun token =>
      match token.Method with
      | .HMAC _ => some (utf8 secret)
      | _ => none) with
  | .error err => .error err
  | .ok token =>
    if !token.Valid then .error (.other "token inválido")
    else .ok token.Claims

/-! ## HTTP responses -/

/-- JSON bodies the handlers write, one constructor per shape of `fiber.Map`. -/
inductive Body where
  /-- The map with keys "status" and "message". -/
  | message (status : String) (message : String)
  /-- The map with keys "status", "message" and "data", where data is one task. -/
  | task (status : String) (message : String) (data : Task)
  /-- The map with keys "status", "message" and "data", where data is a list of tasks. -/
  | tasks (status : String) (message : String) (data : List Task)
  /-- The map with keys "status", "message" and "data", where data is nil. -/
  | nodata (status : String) (message : String)
  /-- The map with "success" false and key "error". -/
  | failure (error : String)
  /-- The map with "success" true that Register answers: user id, names, email, created_at, and the token. -/
  | registered (id : String) (firstName : String) (lastName : String) (email : String)
      (createdAt : Time) (token : TokenString)
  /-- The map with "success" true that Login answers: user id, names, email, and the token. -/
  | loggedIn (id : String) (firstName : String) (lastName : String) (email : String)
      (token : TokenString)
deriving DecidableEq

/-- An HTTP response: status code and JSON body. -/
structure Response where
  status : Nat
  body : Body
deriving DecidableEq

/-! ## The store (the `*gorm.DB` collaborator) -/

/-- The two tables and the sequence behind `tasks.id` (`autoIncrement`). -/
structure Store where
  users : List User
  tasks : List TaskRow
  nextTaskID : Nat
deriving DecidableEq

/-- Errors of a database call as the handlers tell them apart. -/
inductive DBError where
  /-- The value `gorm.ErrRecordNotFound`. -/
  | ErrRecordNotFound
  /-- A unique or primary-key constraint rejected the insert. -/
  | uniqueViolation
  /-- A foreign-key constraint rejected the insert. -/
  | foreignKeyViolation
  /-- Any other failure of the call. -/
  | other
deriving DecidableEq

/-- Which database calls of a handler fail for a reason outside the data; calls are
numbered from 0 in the order in which the handler's text makes them. -/
abbrev Faults := Nat → Bool

/-- No database call fails. -/
def noFaults : Faults := fun _ => false

/-- The task struct that a query scans a row into: associations stay zero. -/
def TaskRow.toTask (r : TaskRow) : Task :=
  { ID := r.ID, Title := r.Title, Description := r.Description, Status := r.Status,
    Priority := r.Priority, DueDate := r.DueDate, CreatorID := r.CreatorID,
    AssigneeID := r.AssigneeID, Creator := User.zero, Assignee := User.zero,
    CreatedAt := r.CreatedAt, UpdatedAt := r.UpdatedAt }

/-- The query `First(&user, "id = ?", id)` on the users table. -/
def Store.firstUserByID (db : Store) (fault : Bool) (id : String) : Except DBError User :=
  if fault then .error .other
  else match db.users.find? (fun u => u.ID == id) with
    | some u => .ok u
    | none => .error .ErrRecordNotFound

/-- The query `Where("email = ?", email).First(&user)`. -/
def Store.firstUserByEmail (db : Store) (fault : Bool) (email : String) : Except DBError User :=
  if fault then .error .other
  else match db.users.find? (fun u => u.Email == email) with
    | some u => .ok u
    | none => .error .ErrRecordNotFound

/-- The query `Where(cond).First(&task)` on the tasks table, `cond` given as a predicate on rows. -/
def Store.firstTask (db : Store) (fault : Bool) (cond : TaskRow → Bool) : Except DBError TaskRow :=
  if fault then .error .other
  else match db.tasks.find? cond with
    | some r => .ok r
    | none => .error .ErrRecordNotFound

/-- What `Preload("Creator")` and `Preload("Assignee")` load for one association: the user
with that id, or the zero user when there is none. -/
def Store.preloadUser (db : Store) (id : String) : User :=
  (db.users.find? (fun u => u.ID == id)).getD User.zero

/-- A row scanned into a task with both associations preloaded. -/
def Store.preload (db : Store) (r : TaskRow) : Task :=
  { r.toTask with Creator := db.preloadUser r.CreatorID, Assignee := db.preloadUser r.AssigneeID }

/-! ## strconv.ParseUint -/

/-- The digit loop of `strconv.ParseUint` in base 10: a byte that is not a digit is a syntax
error, a value above `maxVal` a range error. -/
def parseUintLoop (maxVal : Nat) : List Char → Nat → Option Nat
  | [], n => some n
  | c :: cs, n =>
    if '0' ≤ c ∧ c ≤ '9' then
      let n1 := n * 10 + (c.toNat - '0'.toNat)
      if n1 > maxVal then none else parseUintLoop maxVal cs n1
    else none

/-- The call `strconv.ParseUint(s, 10, bitSize)`; `none` stands for a returned error. -/
def ParseUint (s : String) (bitSize : Nat) : Option Nat :=
  if s = "" then none else parseUintLoop (2 ^ bitSize - 1) s.data 0

/-! ## internal/tasks: Handler.Get -/

/-- The 401 answer of the task handlers when `c.Locals("user_id")` is not a non-empty string. -/
def unauthenticated : Response := ⟨401, .message "error" "Usuario no autenticado."⟩

/-- The 400 answer of the task handlers when the path parameter is not a task id. -/
def invalidTaskID : Response :=
  ⟨400, .message "error" "ID de tarea inválido. Debe ser un número entero."⟩

/-- The handler `tasks.Handler.Get`: `id` is `c.Params("id")`, `user_id` is
`c.Locals("user_id").(string)` (`none` when the assertion fails). Database call 0 is the
query with its preloads. -/
def tasks.Get (db : Store) (fault : Faults) (id : String) (user_id : Option String) :
    Response × Store :=
  match ParseUint id 32 with
  | none => (invalidTaskID, db)
  | some taskID =>
    match user_id with
    | none => (unauthenticated, db)
    | some userID =>
      if userID = "" then (unauthenticated, db)
      else
        match db.firstTask (fault 0)
            (fun t => t.ID == taskID && (t.CreatorID == userID || t.AssigneeID == userID)) with
        | .error .ErrRecordNotFound =>
          (⟨404, .message "error" "Tarea no encontrada o no tienes permiso para verla."⟩, db)
        | .error _ => (⟨500, .message "error" "Error interno al obtener la tarea."⟩, db)
        | .ok row => (⟨200, .task "success" "Tarea obtenida exitosamente." (db.preload row)⟩, db)

/-! ## The writes on the tasks table -/

/-- The call `db.Create(&task)`: the sequence gives the id, `now` is the time stored in
`created_at` and `updated_at`; the primary key rejects an id that is already present, and
the foreign keys of the table, which `AutoMigrate` declares for the associations `Creator`
(`foreignKey:CreatorID`) and `Assignee` (`foreignKey:AssigneeID`) of `models.Task`, reject a
`creator_id` or `assignee_id` that is the id of no stored user. On success the new store
and the inserted row (the struct after the call) are returned. -/
def Store.createTask (db : Store) (fault : Bool) (now : Time) (t : Task) :
    Except DBError (Store × TaskRow) :=
  if fault then .error .other
  else if db.tasks.any (fun r => r.ID == db.nextTaskID) then .error .uniqueViolation
  else if !(db.users.any (fun u => u.ID == t.CreatorID)) ||
      !(db.users.any (fun u => u.ID == t.AssigneeID)) then .error .foreignKeyViolation
  else
    let row : TaskRow :=
      { ID := db.nextTaskID, Title := t.Title, Description := t.Description,
        Status := t.Status, Priority := t.Priority, DueDate := t.DueDate,
        CreatorID := t.CreatorID, AssigneeID := t.AssigneeID,
        CreatedAt := now, UpdatedAt := now }
    .ok ({ db with tasks := db.tasks ++ [row], nextTaskID := db.nextTaskID + 1 }, row)

/-- The map `updates` that `Handler.Update` builds: one optional entry per column key. -/
structure Updates where
  title : Option String
  description : Option String
  due_date : Option Time
  status : Option String
  priority : Option String
  assignee_id : Option String
deriving DecidableEq

/-- The test `len(updates) > 0`. -/
def Updates.nonEmpty (u : Updates) : Bool :=
  u.title.isSome || u.description.isSome || u.due_date.isSome || u.status.isSome ||
    u.priority.isSome || u.assignee_id.isSome

/-- One row after `UPDATE tasks SET ... , updated_at = now`: the keys present in the map are
written, the other columns keep their values. -/
def Updates.apply (u : Updates) (now : Time) (r : TaskRow) : TaskRow :=
  { r with
    Title := u.title.getD r.Title,
    Description := u.description.getD r.Description,
    DueDate := u.due_date.getD r.DueDate,
    Status := u.status.getD r.Status,
    Priority := u.priority.getD r.Priority,
    AssigneeID := u.assignee_id.getD r.AssigneeID,
    UpdatedAt := now }

/-- The call `db.Model(&task).Updates(updates)`: the update of the row whose primary key is
`id`; the foreign key of `assignee_id` rejects the update of a row when the map carries an
`assignee_id` that is the id of no stored user. -/
def Store.updateTask (db : Store) (fault : Bool) (now : Time) (id : Nat) (u : Updates) :
    Except DBError Store :=
  if fault then .error .other
  else if db.tasks.any (fun r => r.ID == id) &&
      (match u.assignee_id with
        | some a => !(db.users.any (fun x => x.ID == a))
        | none => false) then .error .foreignKeyViolation
  else .ok { db with tasks := db.tasks.map (fun r => if r.ID == id then u.apply now r else r) }

/-- The call `db.Delete(&task)`: the delete of the row whose primary key is `id`. -/
def Store.deleteTask (db : Store) (fault : Bool) (id : Nat) : Except DBError Store :=
  if fault then .error .other
  else .ok { db with tasks := db.tasks.filter (fun r => !(r.ID == id)) }

/-! ## internal/tasks: Handler.Create, List, Update, Delete -/

/-- The 400 answer of Create and Update when `c.BodyParser` fails. -/
def invalidJSON : Response :=
  ⟨400, .message "error" "Error al procesar la solicitud: JSON inválido."⟩

/-- The handler `tasks.Handler.Create`: `body` is the result of `c.BodyParser(&req)` (`none`
when it fails), `now` the time of the insert. Database calls: 0 the lookup of the assignee,
1 the insert, 2 the reload with its preloads. -/
def tasks.Create (db : Store) (fault : Faults) (now : Time) (body : Option TaskRequest)
    (user_id : Option String) : Response × Store :=
  match body with
  | none => (invalidJSON, db)
  | some req =>
    if req.Title = "" ∨ req.Description = "" ∨ req.DueDate = 0 then
      (⟨400, .message "error"
        "Los campos 'title', 'description' y 'due_date' son requeridos."⟩, db)
    else
      match user_id with
      | none => (unauthenticated, db)
      | some creatorID =>
        if creatorID = "" then (unauthenticated, db)
        else
          let assigneeID := if req.AssigneeID = "" then creatorID else req.AssigneeID
          let assigneeCheck : Option Response :=
            if assigneeID ≠ creatorID then
              match db.firstUserByID (fault 0) assigneeID with
              | .error .ErrRecordNotFound =>
                some ⟨400, .message "error"
                  ("El usuario asignado con ID " ++ assigneeID ++ " no existe.")⟩
              | .error _ =>
                some ⟨500, .message "error" "Error interno al verificar usuario asignado."⟩
              | .ok _ => none
            else none
          match assigneeCheck with
          | some resp => (resp, db)
          | none =>
            let status := if req.Status = "" then "pending" else req.Status
            let priority := if req.Priority = "" then "medium" else req.Priority
            let task : Task :=
              { ID := 0, Title := req.Title, Description := req.Description,
                Status := status, Priority := priority, DueDate := req.DueDate,
                CreatorID := creatorID, AssigneeID := assigneeID,
                Creator := User.zero, Assignee := User.zero, CreatedAt := 0, UpdatedAt := 0 }
            match db.createTask (fault 1) now task with
            | .error _ => (⟨500, .message "error" "Error interno al crear la tarea."⟩, db)
            | .ok (db1, created) =>
              match db1.firstTask (fault 2) (fun t => t.ID == created.ID) with
              | .error _ =>
                (⟨500, .message "error"
                  "Error interno al cargar los datos de la tarea creada."⟩, db1)
              | .ok row =>
                (⟨201, .task "success" "Tarea creada exitosamente." (db1.preload row)⟩, db1)

/-- The handler `tasks.Handler.List`: `status` and `priority` are the query parameters.
Database call 0 is the query with its preloads. -/
def tasks.List (db : Store) (fault : Faults) (user_id : Option String) (status : String)
    (priority : String) : Response × Store :=
  match user_id with
  | none => (unauthenticated, db)
  | some userID =>
    if userID = "" then (unauthenticated, db)
    else if fault 0 then
      (⟨500, .message "error" "Error interno al obtener las tareas."⟩, db)
    else
      let rows := db.tasks.filter (fun t =>
        (t.CreatorID == userID || t.AssigneeID == userID) &&
        (status == "" || t.Status == status) &&
        (priority == "" || t.Priority == priority))
      (⟨200, .tasks "success" "Tareas obtenidas exitosamente." (rows.map db.preload)⟩, db)

/-- The map `updates` of `Handler.Update` for a request: a key per non-empty field. -/
def updatesOf (req : TaskRequest) : Updates :=
  { title := if req.Title ≠ "" then some req.Title else none,
    description := if req.Description ≠ "" then some req.Description else none,
    due_date := if req.DueDate ≠ 0 then some req.DueDate else none,
    status := if req.Status ≠ "" then some req.Status else none,
    priority := if req.Priority ≠ "" then some req.Priority else none,
    assignee_id := if req.AssigneeID ≠ "" then some req.AssigneeID else none }

/-- The handler `tasks.Handler.Update`. Database calls: 0 the lookup of the task by id and
creator, 1 the lookup of the new assignee, 2 the update, 3 the reload with its preloads. -/
def tasks.Update (db : Store) (fault : Faults) (now : Time) (id : String)
    (user_id : Option String) (body : Option TaskRequest) : Response × Store :=
  match ParseUint id 32 with
  | none => (invalidTaskID, db)
  | some taskID =>
    match user_id with
    | none => (unauthenticated, db)
    | some userID =>
      if userID = "" then (unauthenticated, db)
      else
        match body with
        | none => (invalidJSON, db)
        | some req =>
          match db.firstTask (fault 0) (fun t => t.ID == taskID && t.CreatorID == userID) with
          | .error .ErrRecordNotFound =>
            (⟨403, .message "error" "No tienes permiso para actualizar esta tarea."⟩, db)
          | .error _ =>
            (⟨500, .message "error" "Error interno al obtener la tarea para actualizar."⟩, db)
          | .ok task =>
            let assigneeCheck : Option Response :=
              if req.AssigneeID ≠ "" then
                match db.firstUserByID (fault 1) req.AssigneeID with
                | .error .ErrRecordNotFound =>
                  some ⟨400, .message "error"
                    ("El nuevo usuario asignado con ID " ++ req.AssigneeID ++ " no existe.")⟩
                | .error _ =>
                  some ⟨500, .message "error"
                    "Error interno al verificar nuevo usuario asignado."⟩
                | .ok _ => none
              else none
            match assigneeCheck with
            | some resp => (resp, db)
            | none =>
              let updates := updatesOf req
              if updates.nonEmpty then
                match db.updateTask (fault 2) now task.ID updates with
                | .error _ =>
                  (⟨500, .message "error" "Error interno al actualizar la tarea."⟩, db)
                | .ok db1 =>
                  match db1.firstTask (fault 3) (fun t => t.ID == taskID) with
                  | .error _ =>
                    (⟨500, .message "error"
                      "Error interno al cargar los datos actualizados de la tarea."⟩, db1)
                  | .ok row =>
                    (⟨200, .task "success" "Tarea actualizada exitosamente."
                      (db1.preload row)⟩, db1)
              else
                (⟨200, .task "success" "No se proporcionaron campos para actualizar."
                  task.toTask⟩, db)

/-- The handler `tasks.Handler.Delete`. Database calls: 0 the lookup of the task by id and
creator, 1 the delete. -/
def tasks.Delete (db : Store) (fault : Faults) (id : String) (user_id : Option String) :
    Response × Store :=
  match ParseUint id 32 with
  | none => (invalidTaskID, db)
  | some taskID =>
    match user_id with
    | none => (unauthenticated, db)
    | some userID =>
      if userID = "" then (unauthenticated, db)
      else
        match db.firstTask (fault 0) (fun t => t.ID == taskID && t.CreatorID == userID) with
        | .error .ErrRecordNotFound =>
          (⟨403, .message "error" "No tienes permiso para eliminar esta tarea."⟩, db)
        | .error _ =>
          (⟨500, .message "error" "Error interno al obtener la tarea para eliminar."⟩, db)
        | .ok task =>
          match db.deleteTask (fault 1) task.ID with
          | .error _ => (⟨500, .message "error" "Error interno al eliminar la tarea."⟩, db)
          | .ok db1 => (⟨200, .nodata "success" "Tarea eliminada exitosamente."⟩, db1)

/-! ## The writes and counts on the users table -/

/-- The query `Model(&models.User{}).Where("email = ?", email).Count(&count)` as Register
uses it: the returned error is discarded, so a failed query leaves `count` at 0. -/
def Store.countUsersByEmail (db : Store) (fault : Bool) (email : String) : Nat :=
  if fault then 0 else (db.users.filter (fun u => u.Email == email)).length

/-- The call `db.Create(&user)`: an empty id is filled by the column default
`gen_random_uuid()`, here `uuid`; the primary key and the unique index on `email` reject a
duplicate. On success the new store and the struct after the call are returned. -/
def Store.createUser (db : Store) (fault : Bool) (uuid : String) (u : User) :
    Except DBError (Store × User) :=
  if fault then .error .other
  else
    let row : User := { u with ID := if u.ID = "" then uuid else u.ID }
    if db.users.any (fun x => x.ID == row.ID) || db.users.any (fun x => x.Email == row.Email)
    then .error .uniqueViolation
    else .ok ({ db with users := db.users ++ [row] }, row)

/-! ## internal/auth -/

/-- The predicate `unicode.IsSpace`. -/
def isSpace (c : Char) : Bool :=
  let v := c.toNat
  v == 0x09 || v == 0x0a || v == 0x0b || v == 0x0c || v == 0x0d || v == 0x20 ||
  v == 0x85 || v == 0xa0 || v == 0x1680 || (decide (0x2000 ≤ v) && decide (v ≤ 0x200a)) ||
  v == 0x2028 || v == 0x2029 || v == 0x202f || v == 0x205f || v == 0x3000

/-- The function `strings.TrimSpace`. -/
def TrimSpace (s : String) : String :=
  String.mk ((s.data.dropWhile isSpace).reverse.dropWhile isSpace).reverse

/-- Membership in the character class of the name pattern: the ASCII letters, the listed
accented letters, and the class "\s" of Go regular expressions (tab, newline, form feed,
carriage return, space). -/
def nameChar (c : Char) : Bool :=
  (decide ('a' ≤ c) && decide (c ≤ 'z')) || (decide ('A' ≤ c) && decide (c ≤ 'Z')) ||
  "áéíóúÁÉÍÓÚüÜñÑ".data.contains c ||
  c == '\t' || c == '\n' || c == '\x0c' || c == '\r' || c == ' '

/-- Whether the pattern of Register, one or more characters of the class between the start
and the end of the text, matches `s`. -/
def nameRegexp (s : String) : Bool :=
  !s.data.isEmpty && s.data.all nameChar

/-- What the auth handlers take from outside the store and the request. -/
structure AuthEnv where
  /-- The library functions under `GenerateJWT`. -/
  lib : Lib
  /-- The function `utils.HashPassword` for this call (its salt is drawn inside); `none` is
  its error. Its file is not among the sources, so it is a parameter. -/
  HashPassword : String → Option String
  /-- The function `utils.CheckPasswordHash`, password first, hash second; a parameter for
  the same reason. -/
  CheckPasswordHash : String → String → Bool
  /-- Whether `mail.ParseAddress` returns no error for the string. -/
  ParseAddress : String → Bool
  /-- The reading `time.Now().UTC()` of Register. -/
  now : Time
  /-- The first reading of `time.Now()` in `GenerateJWT`. -/
  jwtNow : Time
  /-- The second reading of `time.Now()` in `GenerateJWT`. -/
  jwtNow' : Time
  /-- The value that `gen_random_uuid()` gives the new row. -/
  uuid : String

/-- The 400 answer of the auth handlers when `c.BodyParser` fails. -/
def auth.invalidJSON : Response := ⟨400, .failure "JSON inválido"⟩

/-- The 400 answer of Register to an email that is already registered. -/
def auth.duplicateEmail : Response := ⟨400, .failure "El email ya está registrado"⟩

/-- The 401 answer of Login. -/
def auth.invalidCredentials : Response := ⟨401, .failure "Credenciales inválidas"⟩

/-- The first part of `auth.Handler.Register`, up to the unique-email check: the decoding
of the body, the five validations and the count of users with the email (database call 0).
The result is the response that ends the handler there, or the request to go on with. -/
def auth.Register.validate (env : AuthEnv) (db : Store) (fault : Faults)
    (body : Option RegisterRequest) : Except Response RegisterRequest :=
  match body with
  | none => .error auth.invalidJSON
  | some req =>
    if goLen (TrimSpace req.FirstName) < 2 ∨ goLen req.FirstName > 50 then
      .error ⟨400, .failure "El nombre debe tener entre 2 y 50 caracteres"⟩
    else if goLen (TrimSpace req.LastName) < 2 ∨ goLen req.LastName > 50 then
      .error ⟨400, .failure "El apellido debe tener entre 2 y 50 caracteres"⟩
    else if !nameRegexp req.FirstName || !nameRegexp req.LastName then
      .error ⟨400, .failure "Nombre y apellido solo pueden contener letras y espacios"⟩
    else if !env.ParseAddress req.Email then
      .error ⟨400, .failure "Email inválido"⟩
    else if goLen req.Password < 6 ∨ goLen req.Password > 100 then
      .error ⟨400, .failure "La contraseña debe tener entre 6 y 100 caracteres"⟩
    else
      let count := db.countUsersByEmail (fault 0) req.Email
      if count > 0 then .error auth.duplicateEmail
      else .ok req

/-- The second part of `auth.Handler.Register`, from the hashing on: `HashPassword`, the
insert (database call 1) and `GenerateJWT`. -/
def auth.Register.persist (env : AuthEnv) (cfg : Config) (db : Store) (fault : Faults)
    (req : RegisterRequest) : Response × Store :=
  match env.HashPassword req.Password with
  | none => (⟨500, .failure "Error al hashear la contraseña"⟩, db)
  | some hash =>
    let user : User :=
      { ID := "", FirstName := req.FirstName, LastName := req.LastName, Email := req.Email,
        PasswordHash := hash, CreatedAt := env.now, UpdatedAt := env.now }
    match db.createUser (fault 1) env.uuid user with
    | .error _ => (⟨500, .failure "Error al crear usuario"⟩, db)
    | .ok (db1, created) =>
      match GenerateJWT env.lib env.jwtNow env.jwtNow' created.ID cfg.JWTSecret
          cfg.JWTExpiry with
      | .error _ => (⟨500, .failure "Error al generar token"⟩, db1)
      | .ok token =>
        (⟨201, .registered created.ID created.FirstName created.LastName created.Email
          created.CreatedAt token⟩, db1)

/-- The handler `auth.Handler.Register`: its two parts in sequence on one store. -/
def auth.Register (env : AuthEnv) (cfg : Config) (db : Store) (fault : Faults)
    (body : Option RegisterRequest) : Response × Store :=
  match auth.Register.validate env db fault body with
  | .error resp => (resp, db)
  | .ok req => auth.Register.persist env cfg db fault req

/-- The handler `auth.Handler.Login`. Database call 0 is the lookup by email; any error of
it, not only `ErrRecordNotFound`, gives the 401 answer. -/
def auth.Login (env : AuthEnv) (cfg : Config) (db : Store) (fault : Faults)
    (body : Option LoginRequest) : Response × Store :=
  match body with
  | none => (auth.invalidJSON, db)
  | some req =>
    if req.Email = "" ∨ req.Password = "" then
      (⟨400, .failure "Email y contraseña son requeridos"⟩, db)
    else
      match db.firstUserByEmail (fault 0) req.Email with
      | .error _ => (auth.invalidCredentials, db)
      | .ok user =>
        if !env.CheckPasswordHash req.Password user.PasswordHash then
          (auth.invalidCredentials, db)
        else
          match GenerateJWT env.lib env.jwtNow env.jwtNow' user.ID cfg.JWTSecret
              cfg.JWTExpiry with
          | .error _ => (⟨500, .failure "Error al generar token"⟩, db)
          | .ok token =>
            (⟨200, .loggedIn user.ID user.FirstName user.LastName user.Email token⟩, db)

/-- The five validations of Register on the fields of a request, all passed. -/
def auth.passesValidation (env : AuthEnv) (req : RegisterRequest) : Prop :=
  (2 ≤ goLen (TrimSpace req.FirstName) ∧ goLen req.FirstName ≤ 50) ∧
  (2 ≤ goLen (TrimSpace req.LastName) ∧ goLen req.LastName ≤ 50) ∧
  (nameRegexp req.FirstName = true ∧ nameRegexp req.LastName = true) ∧
  env.ParseAddress req.Email = true ∧
  (6 ≤ goLen req.Password ∧ goLen req.Password ≤ 100)

/-- The answer of `Get` when the query finds no row. -/
def notVisible : Response :=
  ⟨404, .message "error" "Tarea no encontrada o no tienes permiso para verla."⟩

/-! ## internal/middleware: AuthMiddleware -/

/-- The call `strings.Split(s, " ")` on the bytes of `s`: the pieces between single spaces,
`cur` being the piece under way, in reverse. -/
def splitOnSpace : List Char → List Char → List String
  | [], cur => [String.mk cur.reverse]
  | c :: cs, cur =>
    if c = ' ' then String.mk cur.reverse :: splitOnSpace cs []
    else splitOnSpace cs (c :: cur)

/-- The call `strings.Split(s, " ")`. -/
def Split (s : String) : List String :=
  splitOnSpace s.data []

/-- What a middleware does with a request: it writes a response, or it stores "user_id" in
the request locals and calls the next handler (`c.Next()`). -/
inductive MiddlewareResult where
  | respond (resp : Response)
  | next (user_id : String)
deriving DecidableEq

/-- The 401 answer of `AuthMiddleware` to a token that `ValidateJWT` refuses. -/
def invalidToken : Response := ⟨401, .message "error" "Token inválido o expirado"⟩

/-- The handler that `middleware.AuthMiddleware(cfg)` returns: `authHeader` is
`c.Get("Authorization")`, `now` the time of validation, and `parse` what the JWT parser
makes of a token string (its segments decoded, or malformed). -/
def AuthMiddleware (lib : Lib) (parse : String → TokenString) (now : Time) (cfg : Config)
    (authHeader : String) : MiddlewareResult :=
  if authHeader = "" then .respond ⟨401, .message "error" "Token no proporcionado"⟩
  else
    match Split authHeader with
    | [scheme, token] =>
      if scheme ≠ "Bearer" then
        .respond ⟨401, .message "error" "Formato de token inválido"⟩
      else
        match ValidateJWT lib now (parse token) cfg.JWTSecret with
        | .error _ => .respond invalidToken
        | .ok claims => .next claims.UserID
    | _ => .respond ⟨401, .message "error" "Formato de token inválido"⟩

/-! ## pkg/utils: HashPassword and CheckPasswordHash -/

/-- Modelled from the spec: the credential of sections 3 and 4.1, the value that
`utils.HashPassword` returns (the file of package utils that defines it is not among the
sources): an opaque hash that embeds the cost parameter and the per-call salt next to the
digest. -/
structure Credential where
  cost : Nat
  salt : Bytes
  digest : Bytes
deriving DecidableEq

/-- Modelled from the spec: `utils.HashPassword`, the operation `hash` of section 4.1 (its
file is not among the sources). `kdf` is the memory- and CPU-hard one-way function, `cost`
its tunable cost factor, `salt` the random salt drawn for this call, `none` when the
entropy source is exhausted, the one case in which hashing fails. -/
def utils.HashPassword (kdf : Nat → Bytes → Bytes → Bytes) (cost : Nat) (salt : Option Bytes)
    (secret : String) : Option Credential :=
  match salt with
  | none => none
  | some salt => some { cost := cost, salt := salt, digest := kdf cost salt (utf8 secret) }

/-- Modelled from the spec: `utils.CheckPasswordHash`, the operation `verify` of section
4.1 (its file is not among the sources): the digest is recomputed with the salt and the
parameters embedded in the credential and compared; a mismatch gives false, there is no
error result. -/
def utils.CheckPasswordHash (kdf : Nat → Bytes → Bytes → Bytes) (secret : String)
    (credential : Credential) : Bool :=
  kdf credential.cost credential.salt (utf8 secret) == credential.digest

/-! ## The invariant on assignees -/

/-- Every stored task's `AssigneeID` is the id of a stored user. -/
def Store.assigneesStored (db : Store) : Prop :=
  ∀ r ∈ db.tasks, ∃ u ∈ db.users, u.ID = r.AssigneeID

/-- One call of a handler that writes to the store: `Create`, `Update`, `Delete` or
`Register`, with any arguments and any faults. -/
inductive Step : Store → Store → Prop where
  | create (db : Store) (fault : Faults) (now : Time) (body : Option TaskRequest)
      (user_id : Option String) :
      Step db (tasks.Create db fault now body user_id).2
  | update (db : Store) (fault : Faults) (now : Time) (id : String)
      (user_id : Option String) (body : Option TaskRequest) :
      Step db (tasks.Update db fault now id user_id body).2
  | delete (db : Store) (fault : Faults) (id : String) (user_id : Option String) :
      Step db (tasks.Delete db fault id user_id).2
  | register (env : AuthEnv) (cfg : Config) (db : Store) (fault : Faults)
      (body : Option RegisterRequest) :
      Step db (auth.Register env cfg db fault body).2

/-! ## pkg/models: the values of the `validate` tags of TaskRequest -/

/-- The values of the tag `oneof=pending in_progress complete` on `TaskRequest.Status`. -/
def taskStatuses : List String := ["pending", "in_progress", "complete"]

/-- The values of the tag `oneof=low medium high` on `TaskRequest.Priority`. -/
def taskPriorities : List String := ["low", "medium", "high"]

/-! ## regexp: the patterns of internal/middleware/cors.go -/

/-- A compiled pattern of one of the two forms that cors.go uses: the expression between
the start of the text and its end, or the expression at the start of the text only. Without
the flag "m" the start and end marks match at the two ends of the text and nowhere else. -/
structure Regexp where
  /-- The expression after the start mark. -/
  expr : RegularExpression Char
  /-- Whether the pattern ends with the end mark. -/
  toEnd : Bool

/-- The method `MatchString`: whether the text contains a match of the pattern. -/
def Regexp.MatchString (re : Regexp) (s : String) : Bool :=
  if re.toEnd then re.expr.rmatch s.data else s.data.inits.any re.expr.rmatch

/-- The expression for a literal text. -/
def lit (s : String) : RegularExpression Char :=
  s.data.foldr (fun c r => .char c * r) 1

/-- The expression for a character class given by its members. -/
def oneOf (cs : String) : RegularExpression Char :=
  cs.data.foldr (fun c r => .char c + r) 0

/-- The class of the ASCII digits, written "\d" in the patterns. -/
def digit : RegularExpression Char := oneOf "0123456789"

/-- The expression "e?". -/
def opt (e : RegularExpression Char) : RegularExpression Char := e + 1

/-- The expression "e+". -/
def many1 (e : RegularExpression Char) : RegularExpression Char := e * e.star

/-- The common head "https?://" of the origin patterns. -/
def scheme : RegularExpression Char := lit "http" * opt (.char 's') * lit "://"

/-- The common tail "(:\d+)?" of the origin patterns. -/
def port : RegularExpression Char := opt (.char ':' * many1 digit)

/-- The two middle groups "\.\d+\.\d+" of the address patterns. -/
def twoGroups : RegularExpression Char := lit "." * many1 digit * lit "." * many1 digit

/-- The list `developmentPatterns` of `isDevelopmentOrigin`, in its order. -/
def developmentPatterns : List Regexp :=
  [ ⟨scheme * lit "localhost" * port, true⟩,
    ⟨scheme * lit "127.0.0.1" * port, true⟩,
    ⟨scheme * lit "0.0.0.0" * port, true⟩,
    ⟨scheme * lit "10." * many1 digit * twoGroups * port, true⟩,
    ⟨scheme * lit "172." * (.char '1' * oneOf "6789" + .char '2' * digit + .char '3' * oneOf "01")
      * twoGroups * port, true⟩,
    ⟨scheme * lit "192.168" * twoGroups * port, true⟩,
    ⟨scheme * lit "172.17" * twoGroups * port, true⟩,
    ⟨scheme * lit "172.18" * twoGroups * port, true⟩,
    ⟨scheme * lit "172.19" * twoGroups * port, true⟩,
    ⟨scheme * lit "172.2" * oneOf "0123456789" * twoGroups * port, true⟩,
    ⟨scheme * lit "169.254" * twoGroups * port, true⟩,
    ⟨scheme * lit "192.168.99." * many1 digit * port, true⟩,
    ⟨scheme * many1 (digit + .char '.') * .char ':' * many1 digit, true⟩ ]

/-! ## internal/middleware: CORSMiddleware -/

/-- The function `isDevelopmentOrigin`: whether one of the development patterns matches. -/
def isDevelopmentOrigin (origin : String) : Bool :=
  developmentPatterns.any (fun pattern => pattern.MatchString origin)

/-- The function `isAllowedOrigin`. -/
def isAllowedOrigin (origin : String) (explicitOrigins : List String) (isDevelopment : Bool) :
    Bool :=
  if origin = "" then true
  else if explicitOrigins.any (fun allowed => allowed != "" && origin == allowed) then true
  else if isDevelopment then isDevelopmentOrigin origin
  else false

/-- The pattern `httpsPattern` of `isProductionOrigin`. -/
def httpsPattern : Regexp := ⟨lit "https://", false⟩

/-- The pattern `localhostPattern` of `isProductionOrigin`. -/
def localhostPattern : Regexp := ⟨scheme * lit "localhost" * port, true⟩

/-- The function `isProductionOrigin`. -/
def isProductionOrigin (origin : String) : Bool :=
  if origin = "" then true
  else httpsPattern.MatchString origin || localhostPattern.MatchString origin

/-- The call `strings.Split(s, ",")`: the pieces between commas, `cur` being the piece under
way, in reverse. -/
def splitOnComma : List Char → List Char → List String
  | [], cur => [String.mk cur.reverse]
  | c :: cs, cur =>
    if c = ',' then String.mk cur.reverse :: splitOnComma cs []
    else splitOnComma cs (c :: cur)

/-- The origin part of the `cors.Config` that `CORSMiddleware` builds: the field
`AllowOriginsFunc` or the field `AllowOrigins`, whichever it sets. -/
inductive OriginConfig where
  | AllowOriginsFunc (f : String → Bool)
  | AllowOrigins (origins : String)

/-- The function `CORSMiddleware` up to the call `cors.New(config)`: the origin part of the
configuration, for the environment `getenv` (`os.Getenv`, the empty string for an unset
variable). -/
def CORSMiddleware (getenv : String → String) : OriginConfig :=
  let isDevelopment := getenv "ENV" == "development" || getenv "NODE_ENV" == "development" ||
    getenv "GO_ENV" == "development"
  let envOrigins := getenv "CORS_ALLOWED_ORIGINS"
  let allowedOrigins : List String :=
    if envOrigins ≠ "" ∧ envOrigins ≠ "*" then (splitOnComma envOrigins.data []).map TrimSpace
    else []
  if envOrigins = "*" ∨ isDevelopment = true then
    .AllowOriginsFunc (fun origin => isAllowedOrigin origin allowedOrigins isDevelopment)
  else if allowedOrigins.length > 0 then
    .AllowOrigins (String.intercalate "," allowedOrigins)
  else
    .AllowOriginsFunc (fun origin => isProductionOrigin origin)

/-! ## Sample data for the concrete instances -/

/-- A stored user with the given id and email. -/
def sampleUser (id : String) (email : String) : User :=
  { ID := id, FirstName := "Ana", LastName := "Paz", Email := email,
    PasswordHash := "hash-of-secret1", CreatedAt := 5, UpdatedAt := 5 }

/-- A task row with id 7 created by "alice-id" and assigned to "bob-id". -/
def sampleRow : TaskRow :=
  { ID := 7, Title := "t", Description := "d", Status := "pending", Priority := "medium",
    DueDate := 100, CreatorID := "alice-id", AssigneeID := "bob-id",
    CreatedAt := 10, UpdatedAt := 10 }

/-- A store with three users (Alice, Bob, Carol) and the one task of `sampleRow`. -/
def sampleStore : Store :=
  { users := [sampleUser "alice-id" "alice@x.com", sampleUser "bob-id" "bob@x.com",
      sampleUser "carol-id" "carol@x.com"],
    tasks := [sampleRow], nextTaskID := 8 }

/-- A create request with the required fields only. -/
def sampleRequest : TaskRequest :=
  { Title := "Informe", Description := "Escribir el informe", Status := "", Priority := "",
    DueDate := 1000, AssigneeID := "" }

/-- A stand-in for the library functions, for the concrete instances: the digest is the
identity, the signing string lists the bytes of the subject, the fraction step gives 0. -/
def sampleLib : Lib :=
  { sum := fun _ b => b,
    signingString := fun _ userID _ _ => utf8 userID,
    fracNanos := fun _ _ _ => 0 }

/-- Claims without dates, for the subject "mallory-id". -/
def sampleClaims : Claims :=
  { UserID := "mallory-id", Issuer := "", Subject := "", Audience := [],
    ExpiresAt := none, NotBefore := none, IssuedAt := none, ID := "" }

/-- The token that `GenerateJWT` issues to "alice-id" under `sampleLib` with the secret
"your-secret-key" for 24 hours at the instant 1700000000.5 s. -/
def sampleToken : TokenString :=
  .segments (utf8 "alice-id") (some "HS256")
    { UserID := "alice-id", Issuer := "", Subject := "", Audience := [],
      ExpiresAt := some 1700086400000000000, NotBefore := none,
      IssuedAt := some 1700000000000000000, ID := "" }
    (some (hmacSum sampleLib .SHA256 (utf8 "your-secret-key") (utf8 "alice-id")))

/-- Collaborators for the concrete instances: the hash of a password is the password after
"hash-of-", an address parses when it contains an at sign. -/
def sampleEnv : AuthEnv :=
  { lib := sampleLib,
    HashPassword := fun pw => some ("hash-of-" ++ pw),
    CheckPasswordHash := fun pw h => h == "hash-of-" ++ pw,
    ParseAddress := fun s => s.data.contains '@',
    now := 1700000000000000000,
    jwtNow := 1700000000500000000,
    jwtNow' := 1700000000500000001,
    uuid := "dave-id" }

/-- The configuration that `config.Load` gives without environment variables. -/
def sampleConfig : Config :=
  { Port := "8080", JWTSecret := "your-secret-key", JWTExpiry := "24h",
    DBHost := "localhost", DBPort := "5432", DBUser := "postgres", DBPass := "postgres",
    DBName := "legendaryum_db" }

/-- A valid registration of "dave@x.com". -/
def sampleRegistration : RegisterRequest :=
  { FirstName := "Dave", LastName := "Ruiz", Email := "dave@x.com", Password := "secret4" }

/-- The sample store after another registration has stored "dave@x.com". -/
def lateStore : Store :=
  { sampleStore with users := sampleStore.users ++ [sampleUser "other-id" "dave@x.com"] }

/-- A create or update request with the required fields that names an assignee. -/
def sampleRequestFor (assignee : String) : TaskRequest :=
  { Title := "Informe", Description := "Escribir el informe", Status := "", Priority := "",
    DueDate := 1000, AssigneeID := assignee }

/-- A stand-in for the one-way function, for the concrete instances: cost, salt and secret
side by side. -/
def sampleKdf : Nat → Bytes → Bytes → Bytes :=
  fun cost salt secret => cost :: salt ++ secret

/-- The credential of a secret under `sampleKdf` with cost 10 and the salt 7, 9. -/
def sampleCredential (secret : String) : Credential :=
  { cost := 10, salt := [7, 9], digest := sampleKdf 10 [7, 9] (utf8 secret) }

/-- A stand-in for the parser of token strings, for the concrete instances: "alice" is the
sample token, "unsigned" a token that declares the algorithm "none", any other string is
malformed. -/
def sampleParse (s : String) : TokenString :=
  if s = "alice" then sampleToken
  else if s = "unsigned" then .segments [] (some "none") sampleClaims (some [])
  else .malformed

/-! ## Theorems -/

/-! ### Reading a task (Handler.Get) -/

theorem find?_isSome_iff_exists {α : Type} (p : α → Bool) (l : List α) :
    (∃ a ∈ l, p a = true) ↔ ∃ a, l.find? p = some a := by
  constructor
  · rintro ⟨a, ha, hp⟩
    cases h : l.find? p with
    | some b => exact ⟨b, rfl⟩
    | none =>
      rw [List.find?_eq_none] at h
      exact absurd hp (by simpa using h a ha)
  · rintro ⟨a, h⟩
    exact ⟨a, List.mem_of_find?_eq_some h, List.find?_some h⟩

/-- C1: for a task id that parses, an authenticated actor and no store fault, `Get` answers
200 with a stored task of that id (its associations preloaded) when the actor is the creator
or the assignee of a stored task with that id, and 404 without task data in every other
case; so the status is 200 exactly when such a task exists. -/
theorem Get_ok_iff_creator_or_assignee (db : Store) (fault : Faults) (id : String)
    (taskID : Nat) (userID : String)
    (hid : ParseUint id 32 = some taskID) (hu : userID ≠ "") (hf : fault 0 = false) :
    ((∃ r ∈ db.tasks, r.ID = taskID ∧ (r.CreatorID = userID ∨ r.AssigneeID = userID)) →
      ∃ r ∈ db.tasks, r.ID = taskID ∧ (r.CreatorID = userID ∨ r.AssigneeID = userID) ∧
        tasks.Get db fault id (some userID) =
          (⟨200, .task "success" "Tarea obtenida exitosamente." (db.preload r)⟩, db)) ∧
    ((¬ ∃ r ∈ db.tasks, r.ID = taskID ∧ (r.CreatorID = userID ∨ r.AssigneeID = userID)) →
      tasks.Get db fault id (some userID) = (notVisible, db)) ∧
    ((tasks.Get db fault id (some userID)).1.status = 200 ↔
      ∃ r ∈ db.tasks, r.ID = taskID ∧ (r.CreatorID = userID ∨ r.AssigneeID = userID)) := by
  have key : (∃ r ∈ db.tasks, r.ID = taskID ∧ (r.CreatorID = userID ∨ r.AssigneeID = userID)) ↔
      ∃ a, db.tasks.find?
        (fun t => t.ID == taskID && (t.CreatorID == userID || t.AssigneeID == userID)) = some a := by
    rw [← find?_isSome_iff_exists]
    simp
  cases hfind : db.tasks.find?
      (fun t => t.ID == taskID && (t.CreatorID == userID || t.AssigneeID == userID)) with
  | none =>
    have hno : ¬ ∃ r ∈ db.tasks, r.ID = taskID ∧ (r.CreatorID = userID ∨ r.AssigneeID = userID) := by
      rw [key, hfind]; simp
    have hget : tasks.Get db fault id (some userID) = (notVisible, db) := by
      simp [tasks.Get, hid, hu, hf, Store.firstTask, hfind, notVisible]
    refine ⟨fun h => absurd h hno, fun _ => hget, ?_⟩
    rw [hget]
    simp [notVisible, hno]
  | some r =>
    have hmem := List.mem_of_find?_eq_some hfind
    have hp := List.find?_some hfind
    simp only [Bool.and_eq_true, Bool.or_eq_true, beq_iff_eq] at hp
    have hget : tasks.Get db fault id (some userID) =
        (⟨200, .task "success" "Tarea obtenida exitosamente." (db.preload r)⟩, db) := by
      simp [tasks.Get, hid, hu, hf, Store.firstTask, hfind]
    have hyes : ∃ r ∈ db.tasks, r.ID = taskID ∧ (r.CreatorID = userID ∨ r.AssigneeID = userID) :=
      ⟨r, hmem, hp⟩
    refine ⟨fun _ => ⟨r, hmem, hp.1, hp.2, hget⟩, fun h => absurd hyes h, ?_⟩
    rw [hget]
    simp [hyes]

/-- C1, concrete instance: Bob, the assignee of task 7, reads it; Carol gets 404. -/
theorem Get_ok_iff_creator_or_assignee_witness :
    tasks.Get sampleStore noFaults "7" (some "bob-id") =
      (⟨200, .task "success" "Tarea obtenida exitosamente." (sampleStore.preload sampleRow)⟩,
        sampleStore) ∧
    tasks.Get sampleStore noFaults "7" (some "carol-id") = (notVisible, sampleStore) := by
  have hb := Get_ok_iff_creator_or_assignee sampleStore noFaults "7" 7 "bob-id"
    (by decide) (by decide) rfl
  have hc := Get_ok_iff_creator_or_assignee sampleStore noFaults "7" 7 "carol-id"
    (by decide) (by decide) rfl
  refine ⟨?_, hc.2.1 (by decide)⟩
  obtain ⟨r, hr, _, _, hget⟩ := hb.1 (by decide)
  have : r = sampleRow := by simpa [sampleStore] using hr
  rw [hget, this]

/-- Rows of a table whose ids are pairwise distinct are equal when their ids are. -/
theorem row_eq_of_id_eq {l : List TaskRow} (hnodup : (l.map (fun r => r.ID)).Nodup)
    {r t : TaskRow} (hr : r ∈ l) (ht : t ∈ l) (h : r.ID = t.ID) : r = t :=
  List.inj_on_of_nodup_map hnodup hr ht h

/-- C3: with task ids unique in the store, an actor who is neither creator nor assignee of
the stored task `t` gets from `Get` for the id of `t` the very response (status and body)
that `Get` gives the same actor for an id that no stored task has; without a store fault
that response is the 404 one. -/
theorem Get_hides_existence (db : Store) (fault : Faults) (id id' : String)
    (taskID taskID' : Nat) (userID : String) (t : TaskRow)
    (hid : ParseUint id 32 = some taskID) (hid' : ParseUint id' 32 = some taskID')
    (hnodup : (db.tasks.map (fun r => r.ID)).Nodup)
    (ht : t ∈ db.tasks) (htid : t.ID = taskID)
    (hc : t.CreatorID ≠ userID) (ha : t.AssigneeID ≠ userID)
    (habsent : ∀ r ∈ db.tasks, r.ID ≠ taskID') :
    tasks.Get db fault id (some userID) = tasks.Get db fault id' (some userID) ∧
    (userID ≠ "" → fault 0 = false →
      tasks.Get db fault id (some userID) = (notVisible, db)) := by
  have h1 : db.tasks.find?
      (fun r => r.ID == taskID && (r.CreatorID == userID || r.AssigneeID == userID)) = none := by
    rw [List.find?_eq_none]
    intro r hr
    by_cases hrid : r.ID = taskID
    · have : r = t := row_eq_of_id_eq hnodup hr ht (hrid.trans htid.symm)
      subst this
      simp [hc, ha]
    · simp [hrid]
  have h2 : db.tasks.find?
      (fun r => r.ID == taskID' && (r.CreatorID == userID || r.AssigneeID == userID)) = none := by
    rw [List.find?_eq_none]
    intro r hr
    simp [habsent r hr]
  constructor
  · simp only [tasks.Get, hid, hid', Store.firstTask, h1, h2]
  · intro hu hf
    simp [tasks.Get, hid, hu, hf, Store.firstTask, h1, notVisible]

/-- C3, concrete instance: Carol reads the existing task 7 and the absent task 9. -/
theorem Get_hides_existence_witness :
    tasks.Get sampleStore noFaults "7" (some "carol-id") =
      tasks.Get sampleStore noFaults "9" (some "carol-id") ∧
    tasks.Get sampleStore noFaults "7" (some "carol-id") = (notVisible, sampleStore) := by
  have h := Get_hides_existence sampleStore noFaults "7" "9" 7 9 "carol-id" sampleRow
    (by decide) (by decide) (by decide) (by decide) rfl (by decide) (by decide) (by decide)
  exact ⟨h.1, h.2 (by decide) rfl⟩

/-! ### Writing a task (Handler.Update, Handler.Delete, Handler.Create) -/

/-- The lookup "id = ? AND creator_id = ?" finds nothing when the only task with that id
has another creator. -/
theorem find?_creator_none {db : Store} {t : TaskRow} {taskID : Nat} {userID : String}
    (hnodup : (db.tasks.map (fun r => r.ID)).Nodup) (ht : t ∈ db.tasks)
    (htid : t.ID = taskID) (hne : userID ≠ t.CreatorID) :
    db.tasks.find? (fun r => r.ID == taskID && r.CreatorID == userID) = none := by
  rw [List.find?_eq_none]
  intro r hr
  by_cases hrid : r.ID = taskID
  · have : r = t := row_eq_of_id_eq hnodup hr ht (hrid.trans htid.symm)
    subst this
    simp [Ne.symm hne]
  · simp [hrid]

/-- The lookup "id = ? AND creator_id = ?" finds the task when the actor created it. -/
theorem find?_creator_some {db : Store} {t : TaskRow} {taskID : Nat} {userID : String}
    (hnodup : (db.tasks.map (fun r => r.ID)).Nodup) (ht : t ∈ db.tasks)
    (htid : t.ID = taskID) (heq : userID = t.CreatorID) :
    db.tasks.find? (fun r => r.ID == taskID && r.CreatorID == userID) = some t := by
  cases h : db.tasks.find? (fun r => r.ID == taskID && r.CreatorID == userID) with
  | none =>
    rw [List.find?_eq_none] at h
    exact absurd (h t ht) (by simp [htid, heq])
  | some r =>
    have hr := List.mem_of_find?_eq_some h
    have hp := List.find?_some h
    simp only [Bool.and_eq_true, beq_iff_eq] at hp
    rw [row_eq_of_id_eq hnodup hr ht (hp.1.trans htid.symm)]

/-- When the assignee check of `Update` stops the request, the response is one of its two. -/
theorem newAssigneeCheck_some {db : Store} {f : Bool} {a : String} {x y resp : Response}
    (h : (if a ≠ "" then
        match db.firstUserByID f a with
        | .error .ErrRecordNotFound => some x
        | .error _ => some y
        | .ok _ => none
      else none) = some resp) : resp = x ∨ resp = y := by
  by_cases ha : a = ""
  · simp [ha] at h
  · rw [if_pos ha] at h
    cases hl : db.firstUserByID f a with
    | ok u => rw [hl] at h; simp at h
    | error e =>
      rw [hl] at h
      cases e <;> simp at h <;> simp [← h]

/-- A successful update is the update of the row with that id. -/
theorem updateTask_ok {db db1 : Store} {f : Bool} {now : Time} {k : Nat} {u : Updates}
    (h : db.updateTask f now k u = .ok db1) :
    db1 = { db with
      tasks := db.tasks.map (fun r => if r.ID == k then u.apply now r else r) } := by
  simp only [Store.updateTask] at h
  split_ifs at h
  all_goals first
    | (cases h; done)
    | (cases h; rfl)

/-- An update that no fault stops and whose new assignee, if it has one, is stored
succeeds. -/
theorem updateTask_of_stored_assignee (db : Store) (now : Time) (k : Nat) (u : Updates)
    (h : ∀ a, u.assignee_id = some a → ∃ x ∈ db.users, x.ID = a) :
    db.updateTask false now k u =
      .ok { db with
        tasks := db.tasks.map (fun r => if r.ID == k then u.apply now r else r) } := by
  have hfk : (match u.assignee_id with
      | some a => !(db.users.any (fun x => x.ID == a))
      | none => false) = false := by
    cases hu : u.assignee_id with
    | none => rfl
    | some a =>
      obtain ⟨x, hx, hxa⟩ := h a hu
      simp only [Bool.not_eq_false_eq_eq_true, Bool.not_eq_eq_eq_not, Bool.not_false,
        List.any_eq_true, beq_iff_eq]
      exact ⟨x, hx, hxa⟩
  simp [Store.updateTask, hfk]

/-- The map of updates of a request carries an assignee only when the request names one. -/
theorem updatesOf_assignee {req : TaskRequest} {db : Store}
    (h : req.AssigneeID = "" ∨ ∃ u ∈ db.users, u.ID = req.AssigneeID) :
    ∀ a, (updatesOf req).assignee_id = some a → ∃ x ∈ db.users, x.ID = a := by
  intro a ha
  simp only [updatesOf] at ha
  split at ha
  · cases ha
    rcases h with h | h
    · contradiction
    · exact h
  · cases ha

/-- C2: for a stored task `t` (ids unique, id parses), an authenticated actor and no store
fault: an actor other than the creator of `t`, its assignee included, gets 403 from `Update`
and from `Delete` and the store is unchanged; the creator gets no 403, `Delete` removes the
task and answers 200, and `Update` with a non-empty set of fields and an absent or stored
assignee writes those fields to the task and answers 200. -/
theorem Update_Delete_only_creator (db : Store) (fault : Faults) (now : Time) (id : String)
    (taskID : Nat) (userID : String) (req : TaskRequest) (t : TaskRow)
    (hid : ParseUint id 32 = some taskID) (hu : userID ≠ "")
    (hnodup : (db.tasks.map (fun r => r.ID)).Nodup)
    (ht : t ∈ db.tasks) (htid : t.ID = taskID) (hf : ∀ i, fault i = false) :
    (userID ≠ t.CreatorID →
      tasks.Update db fault now id (some userID) (some req) =
        (⟨403, .message "error" "No tienes permiso para actualizar esta tarea."⟩, db) ∧
      tasks.Delete db fault id (some userID) =
        (⟨403, .message "error" "No tienes permiso para eliminar esta tarea."⟩, db)) ∧
    (userID = t.CreatorID →
      tasks.Delete db fault id (some userID) =
        (⟨200, .nodata "success" "Tarea eliminada exitosamente."⟩,
          { db with tasks := db.tasks.filter (fun r => !(r.ID == taskID)) }) ∧
      (tasks.Update db fault now id (some userID) (some req)).1.status ≠ 403 ∧
      ((req.AssigneeID = "" ∨ ∃ u ∈ db.users, u.ID = req.AssigneeID) →
        (updatesOf req).nonEmpty = true →
        (tasks.Update db fault now id (some userID) (some req)).1.status = 200 ∧
        (tasks.Update db fault now id (some userID) (some req)).2 =
          { db with
            tasks := db.tasks.map
              (fun r => if r.ID == taskID then (updatesOf req).apply now r else r) })) := by
  constructor
  · intro hne
    have hfind := find?_creator_none hnodup ht htid hne
    constructor
    · simp [tasks.Update, hid, hu, hf, Store.firstTask, hfind]
    · simp [tasks.Delete, hid, hu, hf, Store.firstTask, hfind]
  · intro heq
    have hfind := find?_creator_some hnodup ht htid heq
    refine ⟨?_, ?_, ?_⟩
    · simp [tasks.Delete, hid, hu, hf, Store.firstTask, hfind, Store.deleteTask, htid]
    · simp only [tasks.Update, hid, hu, hf, Store.firstTask, hfind]
      simp only [if_false, Bool.false_eq_true]
      repeat' split
      all_goals first
        | (simp; done)
        | (rcases newAssigneeCheck_some (by assumption) with h | h <;> simp [h])
    · intro hassignee hnonempty
      have hfound : ∃ row, (List.map
          (fun r => if r.ID == taskID then (updatesOf req).apply now r else r) db.tasks).find?
            (fun r => r.ID == taskID) = some row := by
        rw [← find?_isSome_iff_exists]
        refine ⟨(updatesOf req).apply now t, ?_, by simp [Updates.apply, htid]⟩
        rw [List.mem_map]
        exact ⟨t, ht, by simp [htid]⟩
      obtain ⟨row, hrow⟩ := hfound
      simp only [beq_iff_eq] at hrow
      have hupd := updateTask_of_stored_assignee db now taskID (updatesOf req)
        (updatesOf_assignee hassignee)
      by_cases he : req.AssigneeID = ""
      · simp [tasks.Update, hid, hu, hf, Store.firstTask, hfind, hupd, he,
          hnonempty, htid, hrow, -List.find?_map]
      · rcases hassignee with h | ⟨u, hu', hid'⟩
        · exact absurd h he
        · have : ∃ a, db.users.find? (fun u => u.ID == req.AssigneeID) = some a := by
            rw [← find?_isSome_iff_exists]
            exact ⟨u, hu', by simp [hid']⟩
          obtain ⟨a, hfa⟩ := this
          simp [tasks.Update, hid, hu, hf, Store.firstTask, hfind, hupd, he,
            hnonempty, htid, hrow, Store.firstUserByID, hfa, -List.find?_map]

/-- C2, concrete instance: Bob, the assignee of task 7, may not delete it; Alice, its
creator, deletes it. -/
theorem Update_Delete_only_creator_witness :
    tasks.Delete sampleStore noFaults "7" (some "bob-id") =
      (⟨403, .message "error" "No tienes permiso para eliminar esta tarea."⟩, sampleStore) ∧
    tasks.Delete sampleStore noFaults "7" (some "alice-id") =
      (⟨200, .nodata "success" "Tarea eliminada exitosamente."⟩,
        { sampleStore with tasks := [] }) := by
  have hb := Update_Delete_only_creator sampleStore noFaults 50 "7" 7 "bob-id"
    ⟨"new title", "", "", "", 0, ""⟩ sampleRow
    (by decide) (by decide) (by decide) (by decide) rfl (fun _ => rfl)
  have ha := Update_Delete_only_creator sampleStore noFaults 50 "7" 7 "alice-id"
    ⟨"new title", "", "", "", 0, ""⟩ sampleRow
    (by decide) (by decide) (by decide) (by decide) rfl (fun _ => rfl)
  exact ⟨(hb.1 (by decide)).2, (ha.2 rfl).1⟩

/-- A successful insert of a task: no fault, a fresh id, a stored creator and a stored
assignee; the new row is the given task with the id of the sequence, at the end of the
table. -/
theorem createTask_ok {db db1 : Store} {row : TaskRow} {f : Bool} {now : Time} {t : Task}
    (h : db.createTask f now t = .ok (db1, row)) :
    f = false ∧ (∀ r ∈ db.tasks, r.ID ≠ db.nextTaskID) ∧
    (∃ u ∈ db.users, u.ID = t.CreatorID) ∧ (∃ u ∈ db.users, u.ID = t.AssigneeID) ∧
    row = { ID := db.nextTaskID, Title := t.Title, Description := t.Description,
            Status := t.Status, Priority := t.Priority, DueDate := t.DueDate,
            CreatorID := t.CreatorID, AssigneeID := t.AssigneeID,
            CreatedAt := now, UpdatedAt := now } ∧
    db1 = { db with tasks := db.tasks ++ [row], nextTaskID := db.nextTaskID + 1 } := by
  simp only [Store.createTask] at h
  split_ifs at h with h1 h2 h3
  simp only [Except.ok.injEq, Prod.mk.injEq] at h
  obtain ⟨rfl, rfl⟩ := h
  simp only [Bool.or_eq_true, Bool.not_eq_eq_eq_not, Bool.not_true, not_or,
    Bool.not_eq_false, List.any_eq_true, beq_iff_eq] at h3
  refine ⟨by simpa using h1, ?_, h3.1, h3.2, rfl, rfl⟩
  intro r hr hid
  exact h2 (List.any_eq_true.mpr ⟨r, hr, by simp [hid]⟩)

/-- An insert that no fault stops, with a fresh id, a stored creator and a stored assignee,
succeeds. -/
theorem createTask_of_stored (db : Store) (now : Time) (t : Task)
    (hfresh : ∀ r ∈ db.tasks, r.ID ≠ db.nextTaskID)
    (hc : ∃ u ∈ db.users, u.ID = t.CreatorID) (ha : ∃ u ∈ db.users, u.ID = t.AssigneeID) :
    db.createTask false now t =
      .ok ({ db with
             tasks := db.tasks ++
               [{ ID := db.nextTaskID, Title := t.Title, Description := t.Description,
                  Status := t.Status, Priority := t.Priority, DueDate := t.DueDate,
                  CreatorID := t.CreatorID, AssigneeID := t.AssigneeID,
                  CreatedAt := now, UpdatedAt := now }],
             nextTaskID := db.nextTaskID + 1 },
           { ID := db.nextTaskID, Title := t.Title, Description := t.Description,
             Status := t.Status, Priority := t.Priority, DueDate := t.DueDate,
             CreatorID := t.CreatorID, AssigneeID := t.AssigneeID,
             CreatedAt := now, UpdatedAt := now }) := by
  have hany : db.tasks.any (fun r => r.ID == db.nextTaskID) = false := by
    rw [Bool.eq_false_iff]
    intro h
    obtain ⟨r, hr, hid⟩ := List.any_eq_true.mp h
    exact hfresh r hr (by simpa using hid)
  have hcre : db.users.any (fun u => u.ID == t.CreatorID) = true := by
    obtain ⟨u, hu, hue⟩ := hc
    exact List.any_eq_true.mpr ⟨u, hu, by simp [hue]⟩
  have hass : db.users.any (fun u => u.ID == t.AssigneeID) = true := by
    obtain ⟨u, hu, hue⟩ := ha
    exact List.any_eq_true.mpr ⟨u, hu, by simp [hue]⟩
  simp [Store.createTask, hany, hcre, hass]

/-- The insert of a task whose creator is no stored user fails. -/
theorem createTask_unknown_creator (db : Store) (f : Bool) (now : Time) (t : Task)
    (hc : ∀ u ∈ db.users, u.ID ≠ t.CreatorID) :
    ∃ e, db.createTask f now t = .error e := by
  cases h : db.createTask f now t with
  | error e => exact ⟨e, rfl⟩
  | ok p =>
    obtain ⟨db1, row⟩ := p
    obtain ⟨_, _, ⟨u, hu, hue⟩, _⟩ := createTask_ok h
    exact absurd hue (hc u hu)

/-- C10: whenever `Create` answers 201, the request had a body and a non-empty actor id, the
store gained exactly one task row, that row has the actor's id as `CreatorID` (the request
body has no field for it), its `AssigneeID` is the actor's id when the request names no
assignee and the request's value otherwise, and the body carries that row. -/
theorem Create_creator_is_actor (db : Store) (fault : Faults) (now : Time)
    (body : Option TaskRequest) (user_id : Option String) (resp : Response) (db' : Store)
    (h : tasks.Create db fault now body user_id = (resp, db')) (hs : resp.status = 201) :
    ∃ req userID row, body = some req ∧ user_id = some userID ∧ userID ≠ "" ∧
      db'.tasks = db.tasks ++ [row] ∧ db'.users = db.users ∧
      row.CreatorID = userID ∧
      (req.AssigneeID = "" → row.AssigneeID = userID) ∧
      (req.AssigneeID ≠ "" → row.AssigneeID = req.AssigneeID) ∧
      resp.body = .task "success" "Tarea creada exitosamente." (db'.preload row) := by
  cases body with
  | none =>
    simp only [tasks.Create] at h
    obtain ⟨rfl, rfl⟩ := Prod.mk.inj h
    simp [invalidJSON] at hs
  | some req =>
    cases user_id with
    | none =>
      simp only [tasks.Create] at h
      split at h <;> (obtain ⟨rfl, rfl⟩ := Prod.mk.inj h; simp [unauthenticated] at hs)
    | some userID =>
      simp only [tasks.Create] at h
      split at h
      · obtain ⟨rfl, rfl⟩ := Prod.mk.inj h; simp at hs
      · split at h
        · obtain ⟨rfl, rfl⟩ := Prod.mk.inj h; simp [unauthenticated] at hs
        · rename_i hu
          split at h
          · rename_i r hr
            obtain ⟨rfl, rfl⟩ := Prod.mk.inj h
            exfalso
            (repeat' split at hr) <;>
              first
              | (simp at hr; done)
              | (simp at hr; rw [← hr] at hs; simp at hs)
          · split at h
            · obtain ⟨rfl, rfl⟩ := Prod.mk.inj h; simp at hs
            · rename_i db1 created hcreate
              obtain ⟨_, hfresh, _, _, hrowdef, hdb1⟩ := createTask_ok hcreate
              subst hdb1
              subst hrowdef
              have hnone : db.tasks.find? (fun t => t.ID == db.nextTaskID) = none := by
                rw [List.find?_eq_none]
                intro r hr
                simpa using hfresh r hr
              simp only [Store.firstTask, List.find?_append, hnone] at h
              split at h
              · obtain ⟨rfl, rfl⟩ := Prod.mk.inj h; simp at hs
              · rename_i row hrow
                split at hrow
                · simp at hrow
                · simp at hrow
                  obtain ⟨rfl, rfl⟩ := Prod.mk.inj h
                  refine ⟨req, userID, _, rfl, rfl, hu, rfl, rfl, rfl, ?_, ?_, ?_⟩
                  · intro he; simp [he]
                  · intro he; simp [he]
                  · rw [← hrow]

/-- C10, concrete instance: Alice creates a task without naming an assignee. -/
theorem Create_creator_is_actor_witness :
    (tasks.Create sampleStore noFaults 20 (some sampleRequest) (some "alice-id")).1.status = 201 ∧
    ∃ req userID row, some sampleRequest = some req ∧ some "alice-id" = some userID ∧
      userID ≠ "" ∧
      (tasks.Create sampleStore noFaults 20 (some sampleRequest) (some "alice-id")).2.tasks =
        sampleStore.tasks ++ [row] ∧
      (tasks.Create sampleStore noFaults 20 (some sampleRequest) (some "alice-id")).2.users =
        sampleStore.users ∧
      row.CreatorID = userID ∧
      (req.AssigneeID = "" → row.AssigneeID = userID) ∧
      (req.AssigneeID ≠ "" → row.AssigneeID = req.AssigneeID) ∧
      (tasks.Create sampleStore noFaults 20 (some sampleRequest) (some "alice-id")).1.body =
        .task "success" "Tarea creada exitosamente."
          ((tasks.Create sampleStore noFaults 20 (some sampleRequest)
            (some "alice-id")).2.preload row) :=
  ⟨by decide, Create_creator_is_actor sampleStore noFaults 20 (some sampleRequest)
    (some "alice-id") _ _ rfl (by decide)⟩

/-! ### The token service (GenerateJWT, ValidateJWT) -/

/-- Truncation to whole seconds loses less than one second. -/
theorem lt_truncate_of_add_le (x tv : Int) (h : tv + 1000000000 ≤ x) :
    tv < x - x % 1000000000 := by
  omega

/-- Truncation to whole seconds never goes forward. -/
theorem truncate_le (x : Int) : x - x % 1000000000 ≤ x := by
  omega

/-- The registry maps "HS256" to the HMAC method over SHA-256. -/
theorem GetSigningMethod_HS256 : GetSigningMethod "HS256" = some (.HMAC .SHA256) := by
  decide

/-- Only the names HS256, HS384 and HS512 are registered with an HMAC method. -/
theorem GetSigningMethod_HMAC {a : String} {h : HashAlg}
    (hm : GetSigningMethod a = some (.HMAC h)) : a = "HS256" ∨ a = "HS384" ∨ a = "HS512" := by
  unfold GetSigningMethod at hm
  cases hf : signingMethods.find? (fun entry => entry.1 == a) with
  | none => rw [hf] at hm; cases hm
  | some entry =>
    rw [hf] at hm
    have hmem := List.mem_of_find?_eq_some hf
    have hp := List.find?_some hf
    simp only [beq_iff_eq] at hp
    simp only [Option.map_some', Option.some.injEq] at hm
    simp only [signingMethods, List.mem_cons, List.mem_singleton, List.not_mem_nil,
      or_false] at hmem
    rcases hmem with e | e | e | e | e | e | e | e | e | e | e | e | e | e <;>
      subst e <;> first
      | exact Or.inl hp.symm
      | exact Or.inr (Or.inl hp.symm)
      | exact Or.inr (Or.inr hp.symm)
      | cases hm

/-- What `ValidateJWT` does with a well-formed HS256 token: the signature check against
the tag under the given secret, then the validation of the dates. -/
theorem ValidateJWT_HS256 (lib : Lib) (tv : Time) (ss : Bytes) (claims : Claims)
    (sig : Bytes) (secret : String) :
    ValidateJWT lib tv (.segments ss (some "HS256") claims (some sig)) secret =
      if sig = hmacSum lib .SHA256 (utf8 secret) ss then
        (match validateClaims tv claims with
          | some err => .error err
          | none => .ok claims)
      else .error .ErrTokenSignatureInvalid := by
  simp only [ValidateJWT, ParseWithClaims, GetSigningMethod_HS256, SigningMethod.Verify]
  by_cases hsig : sig = hmacSum lib .SHA256 (utf8 secret) ss
  · simp only [hsig, beq_self_eq_true, Bool.not_true, Bool.false_eq_true, if_false, if_true]
    cases validateClaims tv claims <;> simp
  · have : (sig == hmacSum lib .SHA256 (utf8 secret) ss) = false := by
      simpa using hsig
    simp [this, hsig]

/-- The token that `GenerateJWT` returns when the expiry string parses. -/
theorem GenerateJWT_ok (lib : Lib) (now now' : Time) (u s d : String) (dur : Int)
    (hd : ParseDuration lib d = some dur) :
    GenerateJWT lib now now' u s d =
      .ok (.segments
        (lib.signingString "HS256" u (some (NewNumericDate (now + dur)))
          (some (NewNumericDate now')))
        (some "HS256")
        { UserID := u, Issuer := "", Subject := "", Audience := [],
          ExpiresAt := some (NewNumericDate (now + dur)), NotBefore := none,
          IssuedAt := some (NewNumericDate now'), ID := "" }
        (some (hmacSum lib .SHA256 (utf8 s)
          (lib.signingString "HS256" u (some (NewNumericDate (now + dur)))
            (some (NewNumericDate now')))))) := by
  simp [GenerateJWT, hd, SigningMethod.Sign]

/-- C5 (as amended): for every subject, secret and expiry string that parses to a duration
`dur` of at least one second, `GenerateJWT` returns a token, and `ValidateJWT` with the same
secret at any time `tv` up to one second before `now + dur`, the time of issuance `now`
included, returns claims whose `UserID` is the subject. -/
theorem GenerateJWT_ValidateJWT_roundtrip (lib : Lib) (now now' tv : Time) (u s d : String)
    (dur : Int) (hd : ParseDuration lib d = some dur) (hdur : 1000000000 ≤ dur)
    (htv : tv = now ∨ tv + 1000000000 ≤ now + dur) :
    ∃ tok claims, GenerateJWT lib now now' u s d = .ok tok ∧
      ValidateJWT lib tv tok s = .ok claims ∧ claims.UserID = u := by
  have hle : tv + 1000000000 ≤ now + dur := by
    rcases htv with h | h
    · rw [h]; exact Int.add_le_add_left hdur now
    · exact h
  have hlt : tv < (now + dur) - (now + dur) % 1000000000 :=
    lt_truncate_of_add_le (now + dur) tv hle
  have hval : ValidateJWT lib tv
      (.segments
        (lib.signingString "HS256" u (some (NewNumericDate (now + dur)))
          (some (NewNumericDate now')))
        (some "HS256")
        { UserID := u, Issuer := "", Subject := "", Audience := [],
          ExpiresAt := some (NewNumericDate (now + dur)), NotBefore := none,
          IssuedAt := some (NewNumericDate now'), ID := "" }
        (some (hmacSum lib .SHA256 (utf8 s)
          (lib.signingString "HS256" u (some (NewNumericDate (now + dur)))
            (some (NewNumericDate now')))))) s =
      .ok { UserID := u, Issuer := "", Subject := "", Audience := [],
            ExpiresAt := some (NewNumericDate (now + dur)), NotBefore := none,
            IssuedAt := some (NewNumericDate now'), ID := "" } := by
    rw [ValidateJWT_HS256]
    simp [validateClaims, NewNumericDate, hlt]
  exact ⟨_, _, GenerateJWT_ok lib now now' u s d dur hd, hval, rfl⟩

/-- C5, concrete instance: a token with the default lifetime "24h", validated at the
instant of issuance. -/
theorem GenerateJWT_ValidateJWT_roundtrip_witness :
    ∃ tok claims,
      GenerateJWT sampleLib 1700000000500000000 1700000000500000001 "alice-id"
        "your-secret-key" "24h" = .ok tok ∧
      ValidateJWT sampleLib 1700000000500000000 tok "your-secret-key" = .ok claims ∧
      claims.UserID = "alice-id" :=
  GenerateJWT_ValidateJWT_roundtrip sampleLib 1700000000500000000 1700000000500000001
    1700000000500000000 "alice-id" "your-secret-key" "24h" 86400000000000
    (by decide) (by decide) (Or.inl rfl)

/-- C5 (counterexample): "-1h" is a well-formed duration, and with it the token is already
expired when issued: for "alice-id" and the secret "your-secret-key", validation at the
instant of issuance (1700000000.5 s) fails with the expired kind. The second part states
the same for every instant and whatever the digests and the serialisation are. -/
theorem roundtrip_fails_for_negative_ttl :
    (ParseDuration sampleLib "-1h" = some (-3600000000000) ∧
      ∃ tok, GenerateJWT sampleLib 1700000000500000000 1700000000500000000 "alice-id"
          "your-secret-key" "-1h" = .ok tok ∧
        ValidateJWT sampleLib 1700000000500000000 tok "your-secret-key" =
          .error (.ErrTokenInvalidClaims true false)) ∧
    (∀ (lib : Lib) (now : Time),
      ParseDuration lib "-1h" = some (-3600000000000) ∧
      ∃ tok, GenerateJWT lib now now "alice-id" "your-secret-key" "-1h" = .ok tok ∧
        ValidateJWT lib now tok "your-secret-key" =
          .error (.ErrTokenInvalidClaims true false)) := by
  have hall : ∀ (lib : Lib) (now : Time),
      ParseDuration lib "-1h" = some (-3600000000000) ∧
      ∃ tok, GenerateJWT lib now now "alice-id" "your-secret-key" "-1h" = .ok tok ∧
        ValidateJWT lib now tok "your-secret-key" =
          .error (.ErrTokenInvalidClaims true false) := by
    intro lib now
    have hd : ParseDuration lib "-1h" = some (-3600000000000) :=
      of_decide_eq_true (Eq.refl true)
    refine ⟨hd, _, GenerateJWT_ok lib now now "alice-id" "your-secret-key" "-1h" _ hd, ?_⟩
    rw [ValidateJWT_HS256]
    have hge : ¬ (now < (now + -3600000000000) - (now + -3600000000000) % 1000000000) := by
      have h1 := truncate_le (now + -3600000000000)
      have h2 : now + -3600000000000 < now := by
        simp
      exact not_lt.mpr (le_of_lt (lt_of_le_of_lt h1 h2))
    simp [validateClaims, NewNumericDate, hge]
  exact ⟨hall sampleLib 1700000000500000000, hall⟩

/-- C6 (as amended): a token produced by `GenerateJWT` carries an expiry date, and
`ValidateJWT` on it with the issuing secret at any time later than that date fails with the
expired kind and returns no claims; `ValidateJWT` on it with a secret under which the HMAC
tag of its signing string differs from the tag under the issuing secret fails, at any time,
with the invalid-signature kind and returns no claims. -/
theorem ValidateJWT_expired_or_other_key (lib : Lib) (now now' : Time) (u s d : String)
    (tok : TokenString) (hgen : GenerateJWT lib now now' u s d = .ok tok) :
    ∃ ss claims sig exp, tok = .segments ss (some "HS256") claims (some sig) ∧
      claims.ExpiresAt = some exp ∧
      (∀ tv : Time, exp < tv →
        ValidateJWT lib tv tok s = .error (.ErrTokenInvalidClaims true false)) ∧
      (∀ (tv : Time) (s' : String),
        hmacSum lib .SHA256 (utf8 s') ss ≠ hmacSum lib .SHA256 (utf8 s) ss →
        ValidateJWT lib tv tok s' = .error .ErrTokenSignatureInvalid) := by
  cases hd : ParseDuration lib d with
  | none => simp [GenerateJWT, hd] at hgen
  | some dur =>
    rw [GenerateJWT_ok lib now now' u s d dur hd] at hgen
    simp only [Except.ok.injEq] at hgen
    subst hgen
    refine ⟨_, _, _, _, rfl, rfl, ?_, ?_⟩
    · intro tv hlt
      rw [ValidateJWT_HS256]
      have hge : ¬ tv < NewNumericDate (now + dur) := not_lt.mpr (le_of_lt hlt)
      simp [validateClaims, hge]
    · intro tv s' hne
      rw [ValidateJWT_HS256]
      simp [Ne.symm hne]

/-- C6, concrete instance: the token issued to "alice-id" for 24 hours is rejected two
days later, and at once under the secret "another-secret". -/
theorem ValidateJWT_expired_or_other_key_witness :
    GenerateJWT sampleLib 1700000000500000000 1700000000500000001 "alice-id"
      "your-secret-key" "24h" = .ok sampleToken ∧
    ValidateJWT sampleLib 1700172800500000000 sampleToken "your-secret-key" =
      .error (.ErrTokenInvalidClaims true false) ∧
    ValidateJWT sampleLib 1700000000500000000 sampleToken "another-secret" =
      .error .ErrTokenSignatureInvalid := by
  obtain ⟨ss, claims, sig, exp, htok, hexp, h1, h2⟩ :=
    ValidateJWT_expired_or_other_key sampleLib 1700000000500000000 1700000000500000001
      "alice-id" "your-secret-key" "24h" sampleToken rfl
  simp only [sampleToken, TokenString.segments.injEq, Option.some.injEq] at htok
  obtain ⟨hss, -, hclaims, -⟩ := htok
  subst hss hclaims
  simp only [Option.some.injEq] at hexp
  subst hexp
  exact ⟨rfl, h1 1700172800500000000 (by decide),
    h2 1700000000500000000 "another-secret" (by decide)⟩

/-- C6 (counterexample): `hmac.New` pads a short key with zero bytes, so the secret
"your-secret-key" followed by a zero byte, a different secret, yields the same tags:
`ValidateJWT` with it accepts the token issued to "alice-id" under "your-secret-key" and
returns its claims. The second part states the same for every instant and whatever the
digests and the serialisation are. -/
theorem other_secret_accepted :
    ("your-secret-key\x00" ≠ "your-secret-key" ∧
      ∃ tok claims, GenerateJWT sampleLib 1700000000500000000 1700000000500000000
          "alice-id" "your-secret-key" "24h" = .ok tok ∧
        ValidateJWT sampleLib 1700000000500000000 tok "your-secret-key\x00" = .ok claims ∧
        claims.UserID = "alice-id") ∧
    (∀ (lib : Lib) (now : Time),
      ∃ tok claims, GenerateJWT lib now now "alice-id" "your-secret-key" "24h" = .ok tok ∧
        ValidateJWT lib now tok "your-secret-key\x00" = .ok claims ∧
        claims.UserID = "alice-id") := by
  have hall : ∀ (lib : Lib) (now : Time),
      ∃ tok claims, GenerateJWT lib now now "alice-id" "your-secret-key" "24h" = .ok tok ∧
        ValidateJWT lib now tok "your-secret-key\x00" = .ok claims ∧
        claims.UserID = "alice-id" := by
    intro lib now
    have hd : ParseDuration lib "24h" = some 86400000000000 :=
      of_decide_eq_true (Eq.refl true)
    have hkey : hmacKeyBlock lib .SHA256 (utf8 "your-secret-key\x00") =
        hmacKeyBlock lib .SHA256 (utf8 "your-secret-key") := by
      rfl
    have hmac : ∀ msg, hmacSum lib .SHA256 (utf8 "your-secret-key\x00") msg =
        hmacSum lib .SHA256 (utf8 "your-secret-key") msg := by
      intro msg
      simp only [hmacSum, hkey]
    have hlt : now < (now + 86400000000000) - (now + 86400000000000) % 1000000000 :=
      lt_truncate_of_add_le (now + 86400000000000) now
        (Int.add_le_add_left (show (1000000000 : Int) ≤ 86400000000000 by norm_num) now)
    have hval : ValidateJWT lib now
        (.segments
          (lib.signingString "HS256" "alice-id"
            (some (NewNumericDate (now + 86400000000000))) (some (NewNumericDate now)))
          (some "HS256")
          { UserID := "alice-id", Issuer := "", Subject := "", Audience := [],
            ExpiresAt := some (NewNumericDate (now + 86400000000000)), NotBefore := none,
            IssuedAt := some (NewNumericDate now), ID := "" }
          (some (hmacSum lib .SHA256 (utf8 "your-secret-key")
            (lib.signingString "HS256" "alice-id"
              (some (NewNumericDate (now + 86400000000000)))
              (some (NewNumericDate now)))))) "your-secret-key\x00" =
        .ok { UserID := "alice-id", Issuer := "", Subject := "", Audience := [],
              ExpiresAt := some (NewNumericDate (now + 86400000000000)), NotBefore := none,
              IssuedAt := some (NewNumericDate now), ID := "" } := by
      rw [ValidateJWT_HS256, hmac]
      simp [validateClaims, NewNumericDate, hlt]
    exact ⟨_, _, GenerateJWT_ok lib now now "alice-id" "your-secret-key" "24h" _ hd, hval, rfl⟩
  exact ⟨⟨by decide, hall sampleLib 1700000000500000000⟩, hall⟩

/-- C7 (as amended): `ValidateJWT` returns an error, and so no claims, for every token whose
"alg" header is absent or is not one of HS256, HS384 and HS512, whatever its signing
string, claims and signature, and whatever the secret and the time. -/
theorem ValidateJWT_rejects_non_HMAC (lib : Lib) (now : Time) (ss : Bytes)
    (alg : Option String) (claims : Claims) (sig : Option Bytes) (secret : String)
    (h : alg ≠ some "HS256" ∧ alg ≠ some "HS384" ∧ alg ≠ some "HS512") :
    ∃ err, ValidateJWT lib now (.segments ss alg claims sig) secret = .error err := by
  obtain ⟨h1, h2, h3⟩ := h
  cases alg with
  | none => exact ⟨_, rfl⟩
  | some a =>
    cases hm : GetSigningMethod a with
    | none => exact ⟨.ErrTokenUnverifiable, by simp only [ValidateJWT, ParseWithClaims, hm]⟩
    | some m =>
      cases sig with
      | none => exact ⟨.ErrTokenMalformed, by simp only [ValidateJWT, ParseWithClaims, hm]⟩
      | some sg =>
        cases m with
        | HMAC hh =>
          rcases GetSigningMethod_HMAC hm with e | e | e
          · exact absurd (by rw [e]) h1
          · exact absurd (by rw [e]) h2
          · exact absurd (by rw [e]) h3
        | _ => exact ⟨.ErrTokenUnverifiable, by simp only [ValidateJWT, ParseWithClaims, hm]⟩

/-- C7, concrete instance: a token that declares the algorithm "none". -/
theorem ValidateJWT_rejects_non_HMAC_witness :
    ∃ err, ValidateJWT sampleLib 0 (.segments [] (some "none") sampleClaims (some []))
      "your-secret-key" = .error err :=
  ValidateJWT_rejects_non_HMAC sampleLib 0 [] (some "none") sampleClaims (some [])
    "your-secret-key" (by decide)

/-- C7 (counterexample): a token that declares "HS384", not the HS256 that `GenerateJWT`
signs with, and carries the HMAC-SHA-384 tag of its signing string under the secret, is
accepted: `ValidateJWT` returns its claims. The second part states the same for every
signing string and instant and whatever the digests are. -/
theorem HS384_token_accepted :
    (some "HS384" ≠ some "HS256" ∧
      ValidateJWT sampleLib 1700000000500000000
        (.segments (utf8 "mallory-id") (some "HS384") sampleClaims
          (some (hmacSum sampleLib .SHA384 (utf8 "your-secret-key") (utf8 "mallory-id"))))
        "your-secret-key" = .ok sampleClaims) ∧
    (∀ (lib : Lib) (now : Time) (ss : Bytes),
      ValidateJWT lib now
        (.segments ss (some "HS384") sampleClaims
          (some (hmacSum lib .SHA384 (utf8 "your-secret-key") ss)))
        "your-secret-key" = .ok sampleClaims) := by
  have hall : ∀ (lib : Lib) (now : Time) (ss : Bytes),
      ValidateJWT lib now
        (.segments ss (some "HS384") sampleClaims
          (some (hmacSum lib .SHA384 (utf8 "your-secret-key") ss)))
        "your-secret-key" = .ok sampleClaims := by
    intro lib now ss
    have hm : GetSigningMethod "HS384" = some (.HMAC .SHA384) := by decide
    simp [ValidateJWT, ParseWithClaims, hm, SigningMethod.Verify, validateClaims, sampleClaims]
  exact ⟨⟨by decide, hall sampleLib 1700000000500000000 (utf8 "mallory-id")⟩, hall⟩

/-- The third member of the HMAC family: a token that declares "HS512" and carries the
HMAC-SHA-512 tag of its signing string under the secret is accepted as well, for every
signing string and instant and whatever the digests are. -/
theorem HS512_token_accepted (lib : Lib) (now : Time) (ss : Bytes) :
    ValidateJWT lib now
      (.segments ss (some "HS512") sampleClaims
        (some (hmacSum lib .SHA512 (utf8 "your-secret-key") ss)))
      "your-secret-key" = .ok sampleClaims := by
  have hm : GetSigningMethod "HS512" = some (.HMAC .SHA512) := by decide
  simp [ValidateJWT, ParseWithClaims, hm, SigningMethod.Verify, validateClaims, sampleClaims]

/-! ### Login and registration (internal/auth) -/

/-- C4: for a request with non-empty email and password, `Login` on a store where no user
has the email and `Login` on a store where users have it but `CheckPasswordHash` rejects the
password against their hash give one and the same response, 401 with the body
"Credenciales inválidas", and leave their store as it was; a failing lookup changes
nothing in this. -/
theorem Login_unknown_email_same_as_wrong_password (env : AuthEnv) (cfg : Config)
    (db db' : Store) (fault fault' : Faults) (req : LoginRequest)
    (hemail : req.Email ≠ "") (hpassword : req.Password ≠ "")
    (hnone : ∀ u ∈ db.users, u.Email ≠ req.Email)
    (hsome : ∃ u ∈ db'.users, u.Email = req.Email)
    (hreject : ∀ u ∈ db'.users, u.Email = req.Email →
      env.CheckPasswordHash req.Password u.PasswordHash = false) :
    auth.Login env cfg db fault (some req) = (auth.invalidCredentials, db) ∧
    auth.Login env cfg db' fault' (some req) = (auth.invalidCredentials, db') ∧
    (auth.Login env cfg db fault (some req)).1 =
      (auth.Login env cfg db' fault' (some req)).1 := by
  have h1 : auth.Login env cfg db fault (some req) = (auth.invalidCredentials, db) := by
    have hfind : db.users.find? (fun u => u.Email == req.Email) = none := by
      rw [List.find?_eq_none]
      intro u hu
      simpa using hnone u hu
    cases hf : fault 0 <;>
      simp [auth.Login, hemail, hpassword, Store.firstUserByEmail, hfind, hf]
  have h2 : auth.Login env cfg db' fault' (some req) = (auth.invalidCredentials, db') := by
    obtain ⟨a, hfa⟩ := (find?_isSome_iff_exists (fun u => u.Email == req.Email) db'.users).mp
      (by obtain ⟨u, hu, he⟩ := hsome; exact ⟨u, hu, by simp [he]⟩)
    have hmem := List.mem_of_find?_eq_some hfa
    have hp := List.find?_some hfa
    simp only [beq_iff_eq] at hp
    have hrej := hreject a hmem hp
    cases hf : fault' 0 <;>
      simp [auth.Login, hemail, hpassword, Store.firstUserByEmail, hfa, hf, hrej]
  exact ⟨h1, h2, by rw [h1, h2]⟩

/-- C4, concrete instance: a login as "alice@x.com" with a wrong password, on a store
without users and on the sample store, where Alice is registered. -/
theorem Login_unknown_email_same_as_wrong_password_witness :
    auth.Login sampleEnv sampleConfig { sampleStore with users := [] } noFaults
      (some ⟨"alice@x.com", "wrong"⟩) =
      (auth.invalidCredentials, { sampleStore with users := [] }) ∧
    auth.Login sampleEnv sampleConfig sampleStore noFaults (some ⟨"alice@x.com", "wrong"⟩) =
      (auth.invalidCredentials, sampleStore) := by
  have h := Login_unknown_email_same_as_wrong_password sampleEnv sampleConfig
    { sampleStore with users := [] } sampleStore noFaults noFaults ⟨"alice@x.com", "wrong"⟩
    (by decide) (by decide) (by decide) (by decide) (by decide)
  exact ⟨h.1, h.2.1⟩

/-- C8: for a request that passes the five validations and whose email belongs to a stored
user, when the count query does not fail, `Register` answers 400 with the body
"El email ya está registrado", which carries no token, and returns the store as it was: no
user is created. -/
theorem Register_duplicate_email (env : AuthEnv) (cfg : Config) (db : Store)
    (fault : Faults) (req : RegisterRequest)
    (hvalid : auth.passesValidation env req)
    (hdup : ∃ u ∈ db.users, u.Email = req.Email) (hf : fault 0 = false) :
    auth.Register env cfg db fault (some req) =
      (⟨400, .failure "El email ya está registrado"⟩, db) := by
  obtain ⟨⟨hf1, hf2⟩, ⟨hl1, hl2⟩, ⟨hr1, hr2⟩, hmail, hp1, hp2⟩ := hvalid
  have hcount : 0 < (db.users.filter (fun u => u.Email == req.Email)).length := by
    obtain ⟨u, hu, he⟩ := hdup
    exact List.length_pos_of_mem (List.mem_filter.mpr ⟨hu, by simp [he]⟩)
  have hvalidate : auth.Register.validate env db fault (some req) =
      .error auth.duplicateEmail := by
    simp only [auth.Register.validate, Store.countUsersByEmail, hf]
    rw [if_neg (by omega), if_neg (by omega), if_neg (by simp [hr1, hr2]),
      if_neg (by simp [hmail]), if_neg (by omega)]
    simp [hcount]
  simp only [auth.Register, hvalidate, auth.duplicateEmail]

/-- C8, concrete instance: a second registration of "alice@x.com". -/
theorem Register_duplicate_email_witness :
    auth.Register sampleEnv sampleConfig sampleStore noFaults
      (some ⟨"Alice", "Paz", "alice@x.com", "secret1"⟩) =
      (⟨400, .failure "El email ya está registrado"⟩, sampleStore) :=
  Register_duplicate_email sampleEnv sampleConfig sampleStore noFaults
    ⟨"Alice", "Paz", "alice@x.com", "secret1"⟩ (by unfold auth.passesValidation; decide)
    (by decide) rfl

/-- C9 (the code at the failing input): the pre-check of a registration of "dave@x.com"
finds no user in `sampleStore` and lets the request pass; by the time of the insert another
registration has stored that email (`lateStore`), the unique index rejects the insert, and
the handler answers 500 "Error al crear usuario", not the 400 of the pre-check. The same
500 comes out of one sequential call on `lateStore` whose count query fails, since the
error of that query is dropped. -/
theorem Register_late_collision_is_500 :
    auth.Register.validate sampleEnv sampleStore noFaults (some sampleRegistration) =
      .ok sampleRegistration ∧
    auth.Register.persist sampleEnv sampleConfig lateStore noFaults sampleRegistration =
      (⟨500, .failure "Error al crear usuario"⟩, lateStore) ∧
    auth.Register sampleEnv sampleConfig lateStore (fun i => decide (i = 0))
      (some sampleRegistration) = (⟨500, .failure "Error al crear usuario"⟩, lateStore) ∧
    auth.Register sampleEnv sampleConfig lateStore noFaults (some sampleRegistration) =
      (auth.duplicateEmail, lateStore) ∧
    (⟨500, .failure "Error al crear usuario"⟩ : Response) ≠ auth.duplicateEmail := by
  refine ⟨rfl, by decide, by decide, by decide, by decide⟩

/-! ### The assignee of a task (Handler.Create, Handler.Update) -/

/-- The lookup of a user by id finds one when a stored user has the id. -/
theorem firstUserByID_ok {db : Store} {id : String} (h : ∃ u ∈ db.users, u.ID = id) :
    ∃ a, db.firstUserByID false id = .ok a := by
  obtain ⟨a, ha⟩ := (find?_isSome_iff_exists (fun u => u.ID == id) db.users).mp
    (by obtain ⟨u, hu, he⟩ := h; exact ⟨u, hu, by simp [he]⟩)
  exact ⟨a, by simp [Store.firstUserByID, ha]⟩

/-- The lookup of a user by id reports "record not found" when no stored user has the id. -/
theorem firstUserByID_notFound {db : Store} {id : String} (h : ∀ u ∈ db.users, u.ID ≠ id) :
    db.firstUserByID false id = .error .ErrRecordNotFound := by
  have hfind : db.users.find? (fun u => u.ID == id) = none := by
    rw [List.find?_eq_none]
    intro u hu
    simpa using h u hu
  simp [Store.firstUserByID, hfind]

/-- C11: for a create request with the required fields by an authenticated actor, when the
lookup of the assignee does not fail: if `assignee_id` is non-empty, differs from the
actor's id and is the id of no stored user, `Create` answers 400 with the message that the
assigned user does not exist and the store is unchanged (no task is stored); if
`assignee_id` is the actor's id or the id of a stored user, the assignee check passes: the
response is 201 or one of the two 500 answers of the later steps (insert, reload); it is
201 when those steps do not fail and the actor is a stored user, and it is the 500 answer of
the insert, by the foreign key of `creator_id`, when the actor is no stored user. -/
theorem Create_assignee_must_exist (db : Store) (fault : Faults) (now : Time)
    (req : TaskRequest) (userID : String)
    (hreq : req.Title ≠ "" ∧ req.Description ≠ "" ∧ req.DueDate ≠ 0)
    (hu : userID ≠ "") (hf : fault 0 = false) :
    ((req.AssigneeID ≠ "" ∧ req.AssigneeID ≠ userID ∧
        (∀ u ∈ db.users, u.ID ≠ req.AssigneeID)) →
      tasks.Create db fault now (some req) (some userID) =
        (⟨400, .message "error"
          ("El usuario asignado con ID " ++ req.AssigneeID ++ " no existe.")⟩, db)) ∧
    ((req.AssigneeID = userID ∨ ∃ u ∈ db.users, u.ID = req.AssigneeID) →
      ((tasks.Create db fault now (some req) (some userID)).1.status = 201 ∨
        (tasks.Create db fault now (some req) (some userID)).1 =
          ⟨500, .message "error" "Error interno al crear la tarea."⟩ ∨
        (tasks.Create db fault now (some req) (some userID)).1 =
          ⟨500, .message "error" "Error interno al cargar los datos de la tarea creada."⟩) ∧
      (fault 1 = false → fault 2 = false → (∀ r ∈ db.tasks, r.ID ≠ db.nextTaskID) →
        (∃ u ∈ db.users, u.ID = userID) →
        (tasks.Create db fault now (some req) (some userID)).1.status = 201) ∧
      ((∀ u ∈ db.users, u.ID ≠ userID) →
        tasks.Create db fault now (some req) (some userID) =
          (⟨500, .message "error" "Error interno al crear la tarea."⟩, db))) := by
  obtain ⟨ht, hd, hdue⟩ := hreq
  constructor
  · rintro ⟨hne, hna, hnone⟩
    simp [tasks.Create, ht, hd, hdue, hu, hne, hna, hf, firstUserByID_notFound hnone]
  · intro hok
    have hcheck : (if (if req.AssigneeID = "" then userID else req.AssigneeID) ≠ userID then
          match db.firstUserByID (fault 0)
            (if req.AssigneeID = "" then userID else req.AssigneeID) with
          | .error .ErrRecordNotFound =>
            some (⟨400, .message "error"
              ("El usuario asignado con ID " ++
                (if req.AssigneeID = "" then userID else req.AssigneeID) ++
                " no existe.")⟩ : Response)
          | .error _ =>
            some ⟨500, .message "error" "Error interno al verificar usuario asignado."⟩
          | .ok _ => none
        else none) = none := by
      by_cases he : req.AssigneeID = ""
      · simp [he]
      · by_cases ha : req.AssigneeID = userID
        · simp [he, ha]
        · rcases hok with h | h
          · exact absurd h ha
          · obtain ⟨a, hfa⟩ := firstUserByID_ok h
            simp [he, ha, hf, hfa]
    refine ⟨?_, ?_, ?_⟩
    · simp only [tasks.Create, ht, hd, hdue, hu, or_self, if_false, hcheck]
      split
      · right; left; rfl
      · split
        · right; right; rfl
        · left; rfl
    · intro hf1 hf2 hfresh hactor
      have hnone : db.tasks.find? (fun t => t.ID == db.nextTaskID) = none := by
        rw [List.find?_eq_none]
        intro r hr
        simpa using hfresh r hr
      have hass : ∃ u ∈ db.users,
          u.ID = (if req.AssigneeID = "" then userID else req.AssigneeID) := by
        by_cases he : req.AssigneeID = ""
        · simpa [he] using hactor
        · rcases hok with h | h
          · simpa [he, h] using hactor
          · simpa [he] using h
      simp only [tasks.Create, ht, hd, hdue, hu, or_self, if_false, hcheck, hf1]
      rw [createTask_of_stored db now _ hfresh hactor hass]
      simp [hf2, Store.firstTask, List.find?_append, hnone]
    · intro hghost
      simp only [tasks.Create, ht, hd, hdue, hu, or_self, if_false, hcheck]
      obtain ⟨e, he⟩ := createTask_unknown_creator db (fault 1) now
        { ID := 0, Title := req.Title, Description := req.Description,
          Status := if req.Status = "" then "pending" else req.Status,
          Priority := if req.Priority = "" then "medium" else req.Priority,
          DueDate := req.DueDate, CreatorID := userID,
          AssigneeID := if req.AssigneeID = "" then userID else req.AssigneeID,
          Creator := User.zero, Assignee := User.zero, CreatedAt := 0, UpdatedAt := 0 }
        hghost
      rw [he]

/-- C11, concrete instance: Alice names the unknown "ghost-id" as assignee and gets 400;
she names Bob and the task is created. -/
theorem Create_assignee_must_exist_witness :
    tasks.Create sampleStore noFaults 20 (some (sampleRequestFor "ghost-id"))
      (some "alice-id") =
      (⟨400, .message "error" "El usuario asignado con ID ghost-id no existe."⟩,
        sampleStore) ∧
    (tasks.Create sampleStore noFaults 20 (some (sampleRequestFor "bob-id"))
      (some "alice-id")).1.status = 201 := by
  have h1 := Create_assignee_must_exist sampleStore noFaults 20 (sampleRequestFor "ghost-id")
    "alice-id" (by decide) (by decide) rfl
  have h2 := Create_assignee_must_exist sampleStore noFaults 20 (sampleRequestFor "bob-id")
    "alice-id" (by decide) (by decide) rfl
  exact ⟨h1.1 (by decide), (h2.2 (by decide)).2.1 rfl rfl (by decide) (by decide)⟩

/-- C12: for an update by the task's creator (id parses, actor authenticated, the two
lookups do not fail) whose `assignee_id` is non-empty and is the id of no stored user,
`Update` answers 400 with the message that the new assigned user does not exist, and the
store after the call is the store before it: no field of the request is applied. -/
theorem Update_unknown_assignee_changes_nothing (db : Store) (fault : Faults) (now : Time)
    (id : String) (taskID : Nat) (userID : String) (req : TaskRequest)
    (hid : ParseUint id 32 = some taskID) (hu : userID ≠ "")
    (htask : ∃ t ∈ db.tasks, t.ID = taskID ∧ t.CreatorID = userID)
    (hf0 : fault 0 = false) (hf1 : fault 1 = false)
    (hne : req.AssigneeID ≠ "") (hnone : ∀ u ∈ db.users, u.ID ≠ req.AssigneeID) :
    tasks.Update db fault now id (some userID) (some req) =
      (⟨400, .message "error"
        ("El nuevo usuario asignado con ID " ++ req.AssigneeID ++ " no existe.")⟩, db) := by
  obtain ⟨a, hfa⟩ := (find?_isSome_iff_exists
    (fun t => t.ID == taskID && t.CreatorID == userID) db.tasks).mp
    (by obtain ⟨t, ht, h1, h2⟩ := htask; exact ⟨t, ht, by simp [h1, h2]⟩)
  simp [tasks.Update, hid, hu, hf0, hf1, Store.firstTask, hfa, hne,
    firstUserByID_notFound hnone]

/-- C12, concrete instance: Alice updates task 7 with a new title and the unknown assignee
"ghost-id". -/
theorem Update_unknown_assignee_changes_nothing_witness :
    tasks.Update sampleStore noFaults 50 "7" (some "alice-id")
      (some { sampleRequestFor "ghost-id" with Title := "new title" }) =
      (⟨400, .message "error" "El nuevo usuario asignado con ID ghost-id no existe."⟩,
        sampleStore) :=
  Update_unknown_assignee_changes_nothing sampleStore noFaults 50 "7" 7 "alice-id"
    { sampleRequestFor "ghost-id" with Title := "new title" }
    (by decide) (by decide) (by decide) rfl rfl (by decide) (by decide)

/-- The update of a row keeps the ids and the creators of all rows, and the users. -/
theorem updateTask_keeps_creator {db db1 : Store} {f : Bool} {now : Time} {k : Nat}
    {u : Updates} (h : db.updateTask f now k u = .ok db1) :
    db1.tasks.map (fun r => (r.ID, r.CreatorID)) =
      db.tasks.map (fun r => (r.ID, r.CreatorID)) ∧ db1.users = db.users := by
  have h := updateTask_ok h
  subst h
  refine ⟨?_, rfl⟩
  simp only [List.map_map]
  apply List.map_congr_left
  intro r _
  simp only [Function.comp]
  split <;> rfl

/-- C13: whatever the store, the faults, the path parameter, the actor and the body are,
the store after `Update` lists the same task ids with the same `CreatorID` as the store
before it, in the same order, and the same users. -/
theorem Update_keeps_creator (db : Store) (fault : Faults) (now : Time) (id : String)
    (user_id : Option String) (body : Option TaskRequest) :
    (tasks.Update db fault now id user_id body).2.tasks.map (fun r => (r.ID, r.CreatorID)) =
      db.tasks.map (fun r => (r.ID, r.CreatorID)) ∧
    (tasks.Update db fault now id user_id body).2.users = db.users := by
  simp only [tasks.Update]
  repeat' split
  all_goals first
    | exact ⟨rfl, rfl⟩
    | exact updateTask_keeps_creator (by assumption)

/-! ### The invariant on assignees -/

/-- A successful lookup of a user by id returns a stored user with that id. -/
theorem firstUserByID_ok_mem {db : Store} {f : Bool} {id : String} {a : User}
    (h : db.firstUserByID f id = .ok a) : ∃ u ∈ db.users, u.ID = id := by
  unfold Store.firstUserByID at h
  split at h
  · cases h
  · split at h
    · rename_i u hfind
      exact ⟨u, List.mem_of_find?_eq_some hfind, by simpa using List.find?_some hfind⟩
    · cases h

/-- An insert of a task keeps the invariant: the foreign key of `assignee_id` holds for
the new row. -/
theorem createTask_preserves {db db1 : Store} {row : TaskRow} {f : Bool} {now : Time}
    {t : Task} (hinv : db.assigneesStored) (h : db.createTask f now t = .ok (db1, row)) :
    db1.assigneesStored := by
  obtain ⟨_, _, _, hassignee, hrow, hdb1⟩ := createTask_ok h
  subst hdb1
  intro r hr
  simp only [List.mem_append, List.mem_singleton] at hr
  rcases hr with hr | rfl
  · exact hinv r hr
  · rw [hrow]
    exact hassignee

/-- An update built from a request whose assignee is absent or stored keeps the
invariant. -/
theorem updateTask_preserves {db db1 : Store} {f : Bool} {now : Time} {k : Nat}
    {req : TaskRequest} (hinv : db.assigneesStored)
    (h : db.updateTask f now k (updatesOf req) = .ok db1)
    (hassignee : req.AssigneeID = "" ∨ ∃ u ∈ db.users, u.ID = req.AssigneeID) :
    db1.assigneesStored := by
  have h := updateTask_ok h
  subst h
  intro r hr
  simp only [List.mem_map] at hr
  obtain ⟨r0, hr0, rfl⟩ := hr
  split
  · rcases hassignee with he | hs
    · simpa [Updates.apply, updatesOf, he] using hinv r0 hr0
    · by_cases he : req.AssigneeID = ""
      · simpa [Updates.apply, updatesOf, he] using hinv r0 hr0
      · simpa [Updates.apply, updatesOf, he] using hs
  · exact hinv r0 hr0

/-- A delete keeps the invariant. -/
theorem deleteTask_preserves {db db1 : Store} {f : Bool} {k : Nat}
    (hinv : db.assigneesStored) (h : db.deleteTask f k = .ok db1) : db1.assigneesStored := by
  unfold Store.deleteTask at h
  split at h
  · cases h
  · simp only [Except.ok.injEq] at h
    subst h
    intro r hr
    exact hinv r (List.mem_of_mem_filter hr)

/-- An insert of a user keeps the invariant. -/
theorem createUser_preserves {db db1 : Store} {f : Bool} {uuid : String} {u created : User}
    (hinv : db.assigneesStored) (h : db.createUser f uuid u = .ok (db1, created)) :
    db1.assigneesStored := by
  simp only [Store.createUser] at h
  split_ifs at h
  all_goals first
    | (cases h; done)
    | (cases h
       intro r hr
       obtain ⟨x, hx, hxe⟩ := hinv r hr
       exact ⟨x, List.mem_append_left _ hx, hxe⟩)

/-- When the assignee check of `Create` lets the request pass and the actor is stored, the
assignee is stored: the check is skipped only for the actor's own id. -/
theorem assigneeCheck_none {db : Store} {f : Bool} {a userID : String} {x y : Response}
    (h : (if a ≠ userID then
        match db.firstUserByID f a with
        | .error .ErrRecordNotFound => some x
        | .error _ => some y
        | .ok _ => none
      else none) = none)
    (hactor : ∃ u ∈ db.users, u.ID = userID) : ∃ u ∈ db.users, u.ID = a := by
  by_cases ha : a = userID
  · rw [ha]; exact hactor
  · rw [if_pos ha] at h
    cases hl : db.firstUserByID f a with
    | ok u => exact firstUserByID_ok_mem hl
    | error e =>
      rw [hl] at h
      cases e <;> simp at h

/-- When the assignee check of `Update` lets the request pass, the request names no
assignee or a stored one. -/
theorem newAssigneeCheck_none {db : Store} {f : Bool} {a : String} {x y : Response}
    (h : (if a ≠ "" then
        match db.firstUserByID f a with
        | .error .ErrRecordNotFound => some x
        | .error _ => some y
        | .ok _ => none
      else none) = none) : a = "" ∨ ∃ u ∈ db.users, u.ID = a := by
  by_cases ha : a = ""
  · exact Or.inl ha
  · rw [if_pos ha] at h
    cases hl : db.firstUserByID f a with
    | ok u => exact Or.inr (firstUserByID_ok_mem hl)
    | error e =>
      rw [hl] at h
      cases e <;> simp at h

/-- `Create` keeps the invariant. -/
theorem Create_preserves (db : Store) (fault : Faults) (now : Time)
    (body : Option TaskRequest) (user_id : Option String) (hinv : db.assigneesStored) :
    (tasks.Create db fault now body user_id).2.assigneesStored := by
  cases body with
  | none => exact hinv
  | some req =>
    simp only [tasks.Create]
    repeat' split
    all_goals first
      | exact hinv
      | exact createTask_preserves hinv (by assumption)

/-- `Update` keeps the invariant. -/
theorem Update_preserves (db : Store) (fault : Faults) (now : Time) (id : String)
    (user_id : Option String) (body : Option TaskRequest) (hinv : db.assigneesStored) :
    (tasks.Update db fault now id user_id body).2.assigneesStored := by
  cases body with
  | none =>
    simp only [tasks.Update]
    repeat' split
    all_goals exact hinv
  | some req =>
    simp only [tasks.Update]
    repeat' split
    all_goals first
      | exact hinv
      | exact updateTask_preserves hinv (by assumption) (newAssigneeCheck_none (by assumption))

/-- `Delete` keeps the invariant. -/
theorem Delete_preserves (db : Store) (fault : Faults) (id : String)
    (user_id : Option String) (hinv : db.assigneesStored) :
    (tasks.Delete db fault id user_id).2.assigneesStored := by
  simp only [tasks.Delete]
  repeat' split
  all_goals first
    | exact hinv
    | exact deleteTask_preserves hinv (by assumption)

/-- `Register` keeps the invariant. -/
theorem Register_preserves (env : AuthEnv) (cfg : Config) (db : Store) (fault : Faults)
    (body : Option RegisterRequest) (hinv : db.assigneesStored) :
    (auth.Register env cfg db fault body).2.assigneesStored := by
  simp only [auth.Register, auth.Register.persist]
  repeat' split
  all_goals first
    | exact hinv
    | exact createUser_preserves hinv (by assumption)

/-- C14: starting from a store in which every task's `AssigneeID` is the id of a stored
user, every store reached by any sequence of calls of `Create`, `Update`, `Delete` and
`Register`, with any arguments, actors and faults, has the same property. -/
theorem assigneesStored_reachable (db db' : Store) (hinv : db.assigneesStored)
    (hreach : Relation.ReflTransGen Step db db') : db'.assigneesStored := by
  induction hreach with
  | refl => exact hinv
  | tail _ hstep ih =>
    cases hstep
    · exact Create_preserves _ _ _ _ _ ih
    · exact Update_preserves _ _ _ _ _ _ ih
    · exact Delete_preserves _ _ _ _ ih
    · exact Register_preserves _ _ _ _ _ ih

/-- C14, concrete instance: the sample store after Alice creates a task that names Bob, and
after the actor "ghost-id", the id of no stored user, asks for a task of their own: the
insert is rejected with 500 and nothing is stored. -/
theorem assigneesStored_reachable_witness :
    sampleStore.assigneesStored ∧
    (tasks.Create sampleStore noFaults 20 (some (sampleRequestFor "bob-id"))
      (some "alice-id")).2.tasks.length = 2 ∧
    (tasks.Create sampleStore noFaults 20 (some (sampleRequestFor "bob-id"))
      (some "alice-id")).2.assigneesStored ∧
    tasks.Create sampleStore noFaults 20 (some sampleRequest) (some "ghost-id") =
      (⟨500, .message "error" "Error interno al crear la tarea."⟩, sampleStore) ∧
    (tasks.Create sampleStore noFaults 20 (some sampleRequest)
      (some "ghost-id")).2.assigneesStored := by
  have hinv : sampleStore.assigneesStored := by
    unfold Store.assigneesStored
    decide
  exact ⟨hinv, by decide, assigneesStored_reachable sampleStore _ hinv
    (Relation.ReflTransGen.single
      (Step.create sampleStore noFaults 20 (some (sampleRequestFor "bob-id"))
        (some "alice-id"))), by decide,
    assigneesStored_reachable sampleStore _ hinv
      (Relation.ReflTransGen.single
        (Step.create sampleStore noFaults 20 (some sampleRequest) (some "ghost-id")))⟩

/-! ### Password hashing (HashPassword, CheckPasswordHash) -/

/-- C15: when `HashPassword` succeeds on a secret with credential `h`, `CheckPasswordHash`
on that secret and `h` is true; and `CheckPasswordHash`, whose only result is a boolean,
is false on every credential whose digest differs from the recomputed one. -/
theorem CheckPasswordHash_of_HashPassword (kdf : Nat → Bytes → Bytes → Bytes) (cost : Nat)
    (salt : Option Bytes) (s : String) (h : Credential)
    (hh : utils.HashPassword kdf cost salt s = some h) :
    utils.CheckPasswordHash kdf s h = true ∧
    (∀ (s' : String) (c : Credential), kdf c.cost c.salt (utf8 s') ≠ c.digest →
      utils.CheckPasswordHash kdf s' c = false) := by
  constructor
  · cases salt with
    | none => simp [utils.HashPassword] at hh
    | some sl =>
      simp only [utils.HashPassword, Option.some.injEq] at hh
      subst hh
      simp [utils.CheckPasswordHash]
  · intro s' c hne
    simpa [utils.CheckPasswordHash] using hne

/-- C15, concrete instance: the secret "secret1" hashed with a two-byte salt verifies, the
secret "wrong" does not. -/
theorem CheckPasswordHash_of_HashPassword_witness :
    utils.CheckPasswordHash sampleKdf "secret1" (sampleCredential "secret1") = true ∧
    utils.CheckPasswordHash sampleKdf "wrong" (sampleCredential "secret1") = false := by
  have h := CheckPasswordHash_of_HashPassword sampleKdf 10 (some [7, 9]) "secret1"
    (sampleCredential "secret1") rfl
  exact ⟨h.1, h.2 "wrong" (sampleCredential "secret1") (by decide)⟩

/-! ### GenerateJWT on a malformed expiry -/

/-- C16: when `time.ParseDuration` rejects the expiry string, `GenerateJWT` returns its
error (with the empty token string) for every subject, secret and pair of clock readings,
and whatever the digest and the serialisation are: nothing is built or signed. -/
theorem GenerateJWT_invalid_expiry (lib : Lib) (expiry : String)
    (hbad : ParseDuration lib expiry = none) :
    ∀ (now now' : Time) (userID secret : String) (sum : HashAlg → Bytes → Bytes)
      (signingString : String → String → Option Int → Option Int → Bytes),
      GenerateJWT { lib with sum := sum, signingString := signingString } now now' userID
        secret expiry = .error "time: invalid duration" := by
  intro now now' userID secret sum signingString
  have hsame : ParseDuration { lib with sum := sum, signingString := signingString } expiry =
      ParseDuration lib expiry := by
    have hloop : ∀ (n : Nat) (cs : List Char) (d : Nat),
        parseDurationLoop { lib with sum := sum, signingString := signingString } n cs d =
          parseDurationLoop lib n cs d := by
      intro n
      induction n with
      | zero => intro cs d; rfl
      | succ n ih =>
        intro cs d
        cases cs with
        | nil => rfl
        | cons c cs =>
          simp only [parseDurationLoop, ih]
    simp only [ParseDuration, hloop]
  simp [GenerateJWT, hsame, hbad]

/-- C16, concrete instance: "1 day" and the empty string are not durations. -/
theorem GenerateJWT_invalid_expiry_witness :
    GenerateJWT sampleLib 1700000000500000000 1700000000500000001 "alice-id"
      "your-secret-key" "1 day" = .error "time: invalid duration" ∧
    GenerateJWT sampleLib 1700000000500000000 1700000000500000001 "alice-id"
      "your-secret-key" "" = .error "time: invalid duration" :=
  ⟨GenerateJWT_invalid_expiry sampleLib "1 day" (by decide) 1700000000500000000
      1700000000500000001 "alice-id" "your-secret-key" sampleLib.sum sampleLib.signingString,
    GenerateJWT_invalid_expiry sampleLib "" (by decide) 1700000000500000000
      1700000000500000001 "alice-id" "your-secret-key" sampleLib.sum sampleLib.signingString⟩

/-! ### AuthMiddleware -/

/-- The header of a bearer token is not empty. -/
theorem header_ne_empty_of_Split {authHeader token : String}
    (h : Split authHeader = ["Bearer", token]) : authHeader ≠ "" := by
  intro he
  rw [he] at h
  simp [Split, splitOnSpace] at h

/-- C17: for every Authorization header that splits into "Bearer" and a token on which
`ValidateJWT` returns an error, of whatever kind, `AuthMiddleware` writes the one response
401 with the message "Token inválido o expirado" and does not call the next handler. -/
theorem AuthMiddleware_invalid_token (lib : Lib) (parse : String → TokenString) (now : Time)
    (cfg : Config) (authHeader token : String) (err : JWTError)
    (hsplit : Split authHeader = ["Bearer", token])
    (herr : ValidateJWT lib now (parse token) cfg.JWTSecret = .error err) :
    AuthMiddleware lib parse now cfg authHeader =
      .respond ⟨401, .message "error" "Token inválido o expirado"⟩ := by
  simp [AuthMiddleware, header_ne_empty_of_Split hsplit, hsplit, herr, invalidToken]

/-- C17, concrete instance: a malformed token, an expired one and one that declares the
algorithm "none" get the same response. -/
theorem AuthMiddleware_invalid_token_witness :
    AuthMiddleware sampleLib sampleParse 1700172800500000000 sampleConfig "Bearer garbage" =
      .respond ⟨401, .message "error" "Token inválido o expirado"⟩ ∧
    AuthMiddleware sampleLib sampleParse 1700172800500000000 sampleConfig "Bearer alice" =
      .respond ⟨401, .message "error" "Token inválido o expirado"⟩ ∧
    AuthMiddleware sampleLib sampleParse 1700172800500000000 sampleConfig "Bearer unsigned" =
      .respond ⟨401, .message "error" "Token inválido o expirado"⟩ :=
  ⟨AuthMiddleware_invalid_token sampleLib sampleParse 1700172800500000000 sampleConfig
      "Bearer garbage" "garbage" .ErrTokenMalformed (by decide) rfl,
    AuthMiddleware_invalid_token sampleLib sampleParse 1700172800500000000 sampleConfig
      "Bearer alice" "alice" (.ErrTokenInvalidClaims true false) (by decide) rfl,
    AuthMiddleware_invalid_token sampleLib sampleParse 1700172800500000000 sampleConfig
      "Bearer unsigned" "unsigned" .ErrTokenUnverifiable (by decide) rfl⟩

/-- C18: `AuthMiddleware` calls the next handler exactly when the Authorization header is
non-empty, splits on single spaces into exactly two parts of which the first is "Bearer",
and `ValidateJWT` on the second part with the configured secret succeeds; the "user_id" it
then stores is the `UserID` of the validated claims; in every other case it writes a
response with status 401 and does not call the next handler. -/
theorem AuthMiddleware_next_iff (lib : Lib) (parse : String → TokenString) (now : Time)
    (cfg : Config) (authHeader : String) :
    ((∃ user_id, AuthMiddleware lib parse now cfg authHeader = .next user_id) ↔
      (authHeader ≠ "" ∧ ∃ token claims, Split authHeader = ["Bearer", token] ∧
        ValidateJWT lib now (parse token) cfg.JWTSecret = .ok claims)) ∧
    (∀ token claims, authHeader ≠ "" → Split authHeader = ["Bearer", token] →
      ValidateJWT lib now (parse token) cfg.JWTSecret = .ok claims →
      AuthMiddleware lib parse now cfg authHeader = .next claims.UserID) ∧
    ((¬ ∃ user_id, AuthMiddleware lib parse now cfg authHeader = .next user_id) →
      ∃ body, AuthMiddleware lib parse now cfg authHeader = .respond ⟨401, body⟩) := by
  have hnext : ∀ token claims, authHeader ≠ "" → Split authHeader = ["Bearer", token] →
      ValidateJWT lib now (parse token) cfg.JWTSecret = .ok claims →
      AuthMiddleware lib parse now cfg authHeader = .next claims.UserID := by
    intro token claims hne hsplit hok
    simp [AuthMiddleware, hne, hsplit, hok]
  have hcases : (∃ token claims, authHeader ≠ "" ∧ Split authHeader = ["Bearer", token] ∧
        ValidateJWT lib now (parse token) cfg.JWTSecret = .ok claims) ∨
      ∃ body, AuthMiddleware lib parse now cfg authHeader = .respond ⟨401, body⟩ := by
    by_cases hne : authHeader = ""
    · exact Or.inr ⟨.message "error" "Token no proporcionado", by simp [AuthMiddleware, hne]⟩
    · simp only [AuthMiddleware, hne, if_false]
      split
      · rename_i scheme token hsplit
        by_cases hs : scheme = "Bearer"
        · subst hs
          cases hv : ValidateJWT lib now (parse token) cfg.JWTSecret with
          | error e =>
            exact Or.inr ⟨.message "error" "Token inválido o expirado", by simp [invalidToken]⟩
          | ok claims => exact Or.inl ⟨token, claims, hne, hsplit, hv⟩
        · exact Or.inr ⟨.message "error" "Formato de token inválido", by simp [hs]⟩
      · exact Or.inr ⟨_, rfl⟩
  refine ⟨⟨?_, ?_⟩, hnext, ?_⟩
  · rintro ⟨u, hu⟩
    rcases hcases with ⟨token, claims, hne, hsplit, hok⟩ | ⟨body, hb⟩
    · exact ⟨hne, token, claims, hsplit, hok⟩
    · rw [hb] at hu; cases hu
  · rintro ⟨hne, token, claims, hsplit, hok⟩
    exact ⟨_, hnext token claims hne hsplit hok⟩
  · intro hno
    rcases hcases with ⟨token, claims, hne, hsplit, hok⟩ | h
    · exact absurd ⟨_, hnext token claims hne hsplit hok⟩ hno
    · exact h

/-- C18, concrete instance: the header "Bearer alice" carries the sample token, which is
valid at its instant of issuance: the next handler runs with "user_id" set to
"alice-id". -/
theorem AuthMiddleware_next_iff_witness :
    AuthMiddleware sampleLib sampleParse 1700000000500000000 sampleConfig "Bearer alice" =
      .next "alice-id" :=
  (AuthMiddleware_next_iff sampleLib sampleParse 1700000000500000000 sampleConfig
    "Bearer alice").2.1 "alice"
    { UserID := "alice-id", Issuer := "", Subject := "", Audience := [],
      ExpiresAt := some 1700086400000000000, NotBefore := none,
      IssuedAt := some 1700000000000000000, ID := "" }
    (by decide) (by decide) rfl

/-! ### Successful registration and login -/

/-- The subject of a token that `GenerateJWT` returns is the user id it was called with. -/
theorem GenerateJWT_subject {lib : Lib} {now now' : Time} {u s d : String}
    {tok : TokenString} (h : GenerateJWT lib now now' u s d = .ok tok) :
    ∃ ss claims sig, tok = .segments ss (some "HS256") claims (some sig) ∧
      claims.UserID = u := by
  cases hd : ParseDuration lib d with
  | none => simp [GenerateJWT, hd] at h
  | some dur =>
    rw [GenerateJWT_ok lib now now' u s d dur hd] at h
    simp only [Except.ok.injEq] at h
    exact ⟨_, _, _, h.symm, rfl⟩

/-- C19: for a request that passes the five validations and whose email no stored user
has, when `HashPassword` succeeds with `h`, the insert does not fail (no fault, the
generated id is new) and the configured expiry is a well-formed duration, `Register` adds
exactly one user, with the request's names and email, `h` as `PasswordHash` and the
generated id, answers 201, and the body carries that user and the token that `GenerateJWT`
issues for the new id, whose subject is that id. -/
theorem Register_success (env : AuthEnv) (cfg : Config) (db : Store) (fault : Faults)
    (req : RegisterRequest) (h : String) (dur : Int)
    (hvalid : auth.passesValidation env req)
    (hnew : ∀ u ∈ db.users, u.Email ≠ req.Email)
    (hhash : env.HashPassword req.Password = some h)
    (hf : fault 1 = false) (hfresh : ∀ u ∈ db.users, u.ID ≠ env.uuid)
    (hexp : ParseDuration env.lib cfg.JWTExpiry = some dur) :
    ∃ tok ss claims sig,
      GenerateJWT env.lib env.jwtNow env.jwtNow' env.uuid cfg.JWTSecret cfg.JWTExpiry =
        .ok tok ∧
      tok = .segments ss (some "HS256") claims (some sig) ∧ claims.UserID = env.uuid ∧
      auth.Register env cfg db fault (some req) =
        (⟨201, .registered env.uuid req.FirstName req.LastName req.Email env.now tok⟩,
          { db with
            users := db.users ++
              [{ ID := env.uuid, FirstName := req.FirstName, LastName := req.LastName,
                 Email := req.Email, PasswordHash := h, CreatedAt := env.now,
                 UpdatedAt := env.now }] }) := by
  obtain ⟨⟨hf1, hf2⟩, ⟨hl1, hl2⟩, ⟨hr1, hr2⟩, hmail, hp1, hp2⟩ := hvalid
  have hgen := GenerateJWT_ok env.lib env.jwtNow env.jwtNow' env.uuid cfg.JWTSecret
    cfg.JWTExpiry dur hexp
  obtain ⟨ss, claims, sig, htok, hsub⟩ := GenerateJWT_subject hgen
  refine ⟨_, ss, claims, sig, hgen, htok, hsub, ?_⟩
  have hcount : db.countUsersByEmail (fault 0) req.Email = 0 := by
    unfold Store.countUsersByEmail
    split
    · rfl
    · rw [List.length_eq_zero, List.filter_eq_nil_iff]
      intro u hu
      simpa using hnew u hu
  have hvalidate : auth.Register.validate env db fault (some req) = .ok req := by
    simp only [auth.Register.validate, hcount]
    rw [if_neg (by omega), if_neg (by omega), if_neg (by simp [hr1, hr2]),
      if_neg (by simp [hmail]), if_neg (by omega)]
    simp
  have hid : db.users.any (fun x => x.ID == env.uuid) = false := by
    rw [Bool.eq_false_iff]
    intro hany
    obtain ⟨u, hu, he⟩ := List.any_eq_true.mp hany
    exact hfresh u hu (by simpa using he)
  have hem : db.users.any (fun x => x.Email == req.Email) = false := by
    rw [Bool.eq_false_iff]
    intro hany
    obtain ⟨u, hu, he⟩ := List.any_eq_true.mp hany
    exact hnew u hu (by simpa using he)
  simp [auth.Register, hvalidate, auth.Register.persist, hhash, Store.createUser, hf, hid,
    hem, hgen]

/-- C19, concrete instance: Dave registers with the sample store and collaborators. -/
theorem Register_success_witness :
    ∃ tok ss claims sig,
      GenerateJWT sampleEnv.lib sampleEnv.jwtNow sampleEnv.jwtNow' sampleEnv.uuid
        sampleConfig.JWTSecret sampleConfig.JWTExpiry = .ok tok ∧
      tok = .segments ss (some "HS256") claims (some sig) ∧ claims.UserID = sampleEnv.uuid ∧
      auth.Register sampleEnv sampleConfig sampleStore noFaults (some sampleRegistration) =
        (⟨201, .registered sampleEnv.uuid sampleRegistration.FirstName
            sampleRegistration.LastName sampleRegistration.Email sampleEnv.now tok⟩,
          { sampleStore with
            users := sampleStore.users ++
              [{ ID := sampleEnv.uuid, FirstName := sampleRegistration.FirstName,
                 LastName := sampleRegistration.LastName, Email := sampleRegistration.Email,
                 PasswordHash := "hash-of-secret4", CreatedAt := sampleEnv.now,
                 UpdatedAt := sampleEnv.now }] }) :=
  Register_success sampleEnv sampleConfig sampleStore noFaults sampleRegistration
    "hash-of-secret4" 86400000000000 (by unfold auth.passesValidation; decide) (by decide)
    (by decide) rfl (by decide) (by decide)

/-- C20: for a stored user with a non-empty email, emails being unique in the store, and a
non-empty password that `CheckPasswordHash` accepts against the user's `PasswordHash`,
when the lookup does not fail and the configured expiry is a well-formed duration, `Login`
with the user's email answers 200 with the user's id, names and email and the token that
`GenerateJWT` issues for the user's id with the configured secret and expiry, whose subject
is that id, and the store after the call is the store before it. -/
theorem Login_success (env : AuthEnv) (cfg : Config) (db : Store) (fault : Faults)
    (u : User) (password : String) (dur : Int)
    (hu : u ∈ db.users) (hunique : (db.users.map (fun x => x.Email)).Nodup)
    (hemail : u.Email ≠ "") (hpassword : password ≠ "")
    (hcheck : env.CheckPasswordHash password u.PasswordHash = true)
    (hf : fault 0 = false)
    (hexp : ParseDuration env.lib cfg.JWTExpiry = some dur) :
    ∃ tok ss claims sig,
      GenerateJWT env.lib env.jwtNow env.jwtNow' u.ID cfg.JWTSecret cfg.JWTExpiry = .ok tok ∧
      tok = .segments ss (some "HS256") claims (some sig) ∧ claims.UserID = u.ID ∧
      auth.Login env cfg db fault (some ⟨u.Email, password⟩) =
        (⟨200, .loggedIn u.ID u.FirstName u.LastName u.Email tok⟩, db) := by
  have hgen := GenerateJWT_ok env.lib env.jwtNow env.jwtNow' u.ID cfg.JWTSecret
    cfg.JWTExpiry dur hexp
  obtain ⟨ss, claims, sig, htok, hsub⟩ := GenerateJWT_subject hgen
  refine ⟨_, ss, claims, sig, hgen, htok, hsub, ?_⟩
  have hfind : db.users.find? (fun x => x.Email == u.Email) = some u := by
    obtain ⟨a, ha⟩ := (find?_isSome_iff_exists (fun x => x.Email == u.Email) db.users).mp
      ⟨u, hu, by simp⟩
    have hmem := List.mem_of_find?_eq_some ha
    have hp := List.find?_some ha
    simp only [beq_iff_eq] at hp
    rw [ha, List.inj_on_of_nodup_map hunique hmem hu hp]
  simp [auth.Login, hemail, hpassword, Store.firstUserByEmail, hf, hfind, hcheck, hgen]

/-- C20, concrete instance: Alice logs in with "secret1" on the sample store. -/
theorem Login_success_witness :
    ∃ tok ss claims sig,
      GenerateJWT sampleEnv.lib sampleEnv.jwtNow sampleEnv.jwtNow' "alice-id"
        sampleConfig.JWTSecret sampleConfig.JWTExpiry = .ok tok ∧
      tok = .segments ss (some "HS256") claims (some sig) ∧ claims.UserID = "alice-id" ∧
      auth.Login sampleEnv sampleConfig sampleStore noFaults
        (some ⟨"alice@x.com", "secret1"⟩) =
        (⟨200, .loggedIn "alice-id" "Ana" "Paz" "alice@x.com" tok⟩, sampleStore) :=
  Login_success sampleEnv sampleConfig sampleStore noFaults
    (sampleUser "alice-id" "alice@x.com") "secret1" 86400000000000
    (by decide) (by decide) (by decide) (by decide) (by decide) rfl (by decide)


/-! ### Listing tasks (Handler.List) -/

/-- C21: for every store, authenticated actor and pair of status/priority query values,
without a store fault, `List` answers 200 and its data are the stored tasks, in store order
and with their associations loaded, that the actor created or is assigned and that pass the
two filters (an empty query value filters nothing); a row is among them iff it is stored and
meets those three conditions, so no returned task is one the actor neither created nor is
assigned; the store is unchanged. -/
theorem List_returns_exactly_visible_matching (db : Store) (fault : Faults) (userID : String)
    (status priority : String) (hu : userID ≠ "") (hf : fault 0 = false) :
    ∃ rows : List TaskRow,
      tasks.List db fault (some userID) status priority =
        (⟨200, .tasks "success" "Tareas obtenidas exitosamente." (rows.map db.preload)⟩, db) ∧
      rows.Sublist db.tasks ∧
      (∀ t, t ∈ rows ↔ t ∈ db.tasks ∧ (t.CreatorID = userID ∨ t.AssigneeID = userID) ∧
        (status = "" ∨ t.Status = status) ∧ (priority = "" ∨ t.Priority = priority)) ∧
      (∀ x ∈ rows.map db.preload, x.CreatorID = userID ∨ x.AssigneeID = userID) := by
  refine ⟨db.tasks.filter (fun t =>
      (t.CreatorID == userID || t.AssigneeID == userID) &&
      (status == "" || t.Status == status) &&
      (priority == "" || t.Priority == priority)), ?_, List.filter_sublist _, ?_, ?_⟩
  · simp [tasks.List, hu, hf]
  · intro t
    simp only [List.mem_filter, Bool.and_eq_true, Bool.or_eq_true, beq_iff_eq, and_assoc]
  · intro x hx
    rw [List.mem_map] at hx
    obtain ⟨t, ht, rfl⟩ := hx
    simp only [List.mem_filter, Bool.and_eq_true, Bool.or_eq_true, beq_iff_eq] at ht
    simpa [Store.preload] using ht.2.1.1

/-- C21, concrete instance: Bob, the assignee of task 7, lists the pending tasks; Carol, who
has no task, gets the empty list. -/
theorem List_returns_exactly_visible_matching_witness :
    (∃ rows : List TaskRow,
      tasks.List sampleStore noFaults (some "bob-id") "pending" "" =
        (⟨200, .tasks "success" "Tareas obtenidas exitosamente."
          (rows.map sampleStore.preload)⟩, sampleStore) ∧
      rows.Sublist sampleStore.tasks ∧
      (∀ t, t ∈ rows ↔ t ∈ sampleStore.tasks ∧
        (t.CreatorID = "bob-id" ∨ t.AssigneeID = "bob-id") ∧
        ("pending" = "" ∨ t.Status = "pending") ∧ ("" = "" ∨ t.Priority = "")) ∧
      (∀ x ∈ rows.map sampleStore.preload, x.CreatorID = "bob-id" ∨ x.AssigneeID = "bob-id")) ∧
    tasks.List sampleStore noFaults (some "bob-id") "pending" "" =
      (⟨200, .tasks "success" "Tareas obtenidas exitosamente."
        [sampleStore.preload sampleRow]⟩, sampleStore) ∧
    tasks.List sampleStore noFaults (some "carol-id") "" "" =
      (⟨200, .tasks "success" "Tareas obtenidas exitosamente." []⟩, sampleStore) :=
  ⟨List_returns_exactly_visible_matching sampleStore noFaults "bob-id" "pending" ""
    (by decide) rfl, by decide, by decide⟩


/-! ### Writes on absent tasks and by other actors -/

/-- C29: with task ids unique in the store, for an actor who did not create the stored task
`t` and an id that no stored task has, `Update` (with the same body) gives the same response
for the id of `t` and for the absent id, and so does `Delete`; for an authenticated actor
and without a store fault each of these responses is the 403 one of the handler, and the
store is unchanged. -/
theorem Update_Delete_hide_existence (db : Store) (fault : Faults) (now : Time)
    (id id' : String) (taskID taskID' : Nat) (userID : String) (body : Option TaskRequest)
    (t : TaskRow)
    (hid : ParseUint id 32 = some taskID) (hid' : ParseUint id' 32 = some taskID')
    (hnodup : (db.tasks.map (fun r => r.ID)).Nodup)
    (ht : t ∈ db.tasks) (htid : t.ID = taskID) (hc : userID ≠ t.CreatorID)
    (habsent : ∀ r ∈ db.tasks, r.ID ≠ taskID') :
    tasks.Update db fault now id (some userID) body =
      tasks.Update db fault now id' (some userID) body ∧
    tasks.Delete db fault id (some userID) = tasks.Delete db fault id' (some userID) ∧
    (userID ≠ "" → fault 0 = false →
      (∀ req, body = some req →
        tasks.Update db fault now id (some userID) body =
          (⟨403, .message "error" "No tienes permiso para actualizar esta tarea."⟩, db)) ∧
      tasks.Delete db fault id (some userID) =
        (⟨403, .message "error" "No tienes permiso para eliminar esta tarea."⟩, db)) := by
  have h1 := find?_creator_none hnodup ht htid hc
  have h2 : db.tasks.find? (fun r => r.ID == taskID' && r.CreatorID == userID) = none := by
    rw [List.find?_eq_none]
    intro r hr
    simp [habsent r hr]
  refine ⟨?_, ?_, ?_⟩
  · cases body <;> cases hf : fault 0 <;>
      simp [tasks.Update, hid, hid', Store.firstTask, h1, h2, hf]
  · cases hf : fault 0 <;> simp [tasks.Delete, hid, hid', Store.firstTask, h1, h2, hf]
  · intro hu hf
    constructor
    · intro req hb
      simp [tasks.Update, hid, hu, hf, hb, Store.firstTask, h1]
    · simp [tasks.Delete, hid, hu, hf, Store.firstTask, h1]

/-- C29, concrete instance: Bob, the assignee but not the creator of task 7, tries to change
and to delete task 7 and the absent task 9. -/
theorem Update_Delete_hide_existence_witness :
    tasks.Update sampleStore noFaults 50 "7" (some "bob-id") (some sampleRequest) =
      tasks.Update sampleStore noFaults 50 "9" (some "bob-id") (some sampleRequest) ∧
    tasks.Delete sampleStore noFaults "7" (some "bob-id") =
      tasks.Delete sampleStore noFaults "9" (some "bob-id") ∧
    tasks.Update sampleStore noFaults 50 "7" (some "bob-id") (some sampleRequest) =
      (⟨403, .message "error" "No tienes permiso para actualizar esta tarea."⟩, sampleStore) ∧
    tasks.Delete sampleStore noFaults "7" (some "bob-id") =
      (⟨403, .message "error" "No tienes permiso para eliminar esta tarea."⟩, sampleStore) := by
  have h := Update_Delete_hide_existence sampleStore noFaults 50 "7" "9" 7 9 "bob-id"
    (some sampleRequest) sampleRow (by decide) (by decide) (by decide) (by decide) rfl
    (by decide) (by decide)
  exact ⟨h.1, h.2.1, (h.2.2 (by decide) rfl).1 _ rfl, (h.2.2 (by decide) rfl).2⟩

/-- C22, the behaviour of the code: Alice asks to change and to delete the task 9, an id that
parses and that no stored task has, and both handlers answer 403, not 404. -/
theorem Update_Delete_absent_task_is_403_not_404 :
    ParseUint "9" 32 = some 9 ∧ (∀ r ∈ sampleStore.tasks, r.ID ≠ 9) ∧
    tasks.Update sampleStore noFaults 50 "9" (some "alice-id") (some sampleRequest) =
      (⟨403, .message "error" "No tienes permiso para actualizar esta tarea."⟩, sampleStore) ∧
    tasks.Delete sampleStore noFaults "9" (some "alice-id") =
      (⟨403, .message "error" "No tienes permiso para eliminar esta tarea."⟩, sampleStore) ∧
    (tasks.Update sampleStore noFaults 50 "9" (some "alice-id")
      (some sampleRequest)).1.status ≠ 404 ∧
    (tasks.Delete sampleStore noFaults "9" (some "alice-id")).1.status ≠ 404 := by
  decide

/-- C22, as the code has it: for every authenticated actor and every task id that parses but
matches no stored task, without a store fault, `Update` (with a body that decodes) and
`Delete` respond 403 with the no-permission message of the handler, the response they give
an actor who is not the creator, and leave the store unchanged; and on no input at all does
either handler respond 404. -/
theorem Update_Delete_absent_task_forbidden (db : Store) (fault : Faults) (now : Time)
    (id : String) (taskID : Nat) (userID : String) (req : TaskRequest)
    (hid : ParseUint id 32 = some taskID) (hu : userID ≠ "") (hf : fault 0 = false)
    (habsent : ∀ r ∈ db.tasks, r.ID ≠ taskID) :
    tasks.Update db fault now id (some userID) (some req) =
      (⟨403, .message "error" "No tienes permiso para actualizar esta tarea."⟩, db) ∧
    tasks.Delete db fault id (some userID) =
      (⟨403, .message "error" "No tienes permiso para eliminar esta tarea."⟩, db) ∧
    (∀ (db0 : Store) (fault0 : Faults) (now0 : Time) (id0 : String) (user_id : Option String)
        (body : Option TaskRequest),
      (tasks.Update db0 fault0 now0 id0 user_id body).1.status ≠ 404 ∧
      (tasks.Delete db0 fault0 id0 user_id).1.status ≠ 404) := by
  have h : db.tasks.find? (fun r => r.ID == taskID && r.CreatorID == userID) = none := by
    rw [List.find?_eq_none]
    intro r hr
    simp [habsent r hr]
  refine ⟨?_, ?_, ?_⟩
  · simp [tasks.Update, hid, hu, hf, Store.firstTask, h]
  · simp [tasks.Delete, hid, hu, hf, Store.firstTask, h]
  · intro db0 fault0 now0 id0 user_id body
    constructor
    · simp only [tasks.Update]
      repeat' split
      all_goals first
        | (simp [invalidTaskID, unauthenticated, invalidJSON]; done)
        | (rcases newAssigneeCheck_some (by assumption) with h | h <;> simp [h])
    · simp only [tasks.Delete]
      repeat' split
      all_goals simp [invalidTaskID, unauthenticated]

/-- C22 (as amended), concrete instance: Bob asks to change and to delete the task 12, which
is not stored. -/
theorem Update_Delete_absent_task_forbidden_witness :
    tasks.Update sampleStore noFaults 50 "12" (some "bob-id") (some sampleRequest) =
      (⟨403, .message "error" "No tienes permiso para actualizar esta tarea."⟩, sampleStore) ∧
    tasks.Delete sampleStore noFaults "12" (some "bob-id") =
      (⟨403, .message "error" "No tienes permiso para eliminar esta tarea."⟩, sampleStore) :=
  have h := Update_Delete_absent_task_forbidden sampleStore noFaults 50 "12" 12 "bob-id"
    sampleRequest (by decide) (by decide) rfl (by decide)
  ⟨h.1, h.2.1⟩


/-! ### The effect of a successful Delete and Update -/

/-- What a successful lookup "id = ? AND creator_id = ?" says of the row it returns. -/
theorem firstTask_creator_ok {db : Store} {f : Bool} {taskID : Nat} {userID : String}
    {task : TaskRow}
    (h : db.firstTask f (fun t => t.ID == taskID && t.CreatorID == userID) = .ok task) :
    task ∈ db.tasks ∧ task.ID = taskID ∧ task.CreatorID = userID := by
  simp only [Store.firstTask] at h
  split at h
  · cases h
  · split at h
    · rename_i r hr
      cases h
      have hp := List.find?_some hr
      simp only [Bool.and_eq_true, beq_iff_eq] at hp
      exact ⟨List.mem_of_find?_eq_some hr, hp.1, hp.2⟩
    · cases h

/-- C28: whenever `Delete` answers 200, the actor is authenticated and created a stored task
with the id of the request; the response is 200 with status "success"; the store afterwards
holds the tasks of the store before without those of that id, in the same order, so no task
with that id is left and every other task is there unchanged; the users are unchanged; and a
following `Get` for that id by any authenticated actor, without a store fault, answers 404. -/
theorem Delete_success_removes_task (db : Store) (fault : Faults) (id : String)
    (user_id : Option String) (resp : Response) (db' : Store)
    (h : tasks.Delete db fault id user_id = (resp, db')) (hs : resp.status = 200) :
    ∃ taskID userID t, ParseUint id 32 = some taskID ∧ user_id = some userID ∧ userID ≠ "" ∧
      t ∈ db.tasks ∧ t.ID = taskID ∧ t.CreatorID = userID ∧
      resp = ⟨200, .nodata "success" "Tarea eliminada exitosamente."⟩ ∧
      db'.tasks = db.tasks.filter (fun r => !(r.ID == taskID)) ∧
      db'.users = db.users ∧ db'.nextTaskID = db.nextTaskID ∧
      (∀ r ∈ db'.tasks, r.ID ≠ taskID) ∧
      (∀ r ∈ db.tasks, r.ID ≠ taskID → r ∈ db'.tasks) ∧
      (∀ (fault' : Faults) (actor : String), actor ≠ "" → fault' 0 = false →
        tasks.Get db' fault' id (some actor) = (notVisible, db')) := by
  simp only [tasks.Delete] at h
  split at h
  · obtain ⟨rfl, rfl⟩ := Prod.mk.inj h; simp [invalidTaskID] at hs
  · rename_i taskID hid
    split at h
    · obtain ⟨rfl, rfl⟩ := Prod.mk.inj h; simp [unauthenticated] at hs
    · rename_i userID
      split at h
      · obtain ⟨rfl, rfl⟩ := Prod.mk.inj h; simp [unauthenticated] at hs
      · rename_i hu
        split at h
        · obtain ⟨rfl, rfl⟩ := Prod.mk.inj h; simp at hs
        · obtain ⟨rfl, rfl⟩ := Prod.mk.inj h; simp at hs
        · rename_i task hfind
          obtain ⟨hmem, htid, hcr⟩ := firstTask_creator_ok hfind
          simp only [Store.deleteTask] at h
          split at h
          · obtain ⟨rfl, rfl⟩ := Prod.mk.inj h; simp at hs
          · rename_i db1 hdel
            split at hdel
            · cases hdel
            · simp only [Except.ok.injEq] at hdel
              obtain ⟨rfl, rfl⟩ := Prod.mk.inj h
              subst hdel
              rw [htid]
              have hgone : ∀ r ∈ db.tasks.filter (fun r => !(r.ID == taskID)),
                  r.ID ≠ taskID := by
                intro r hr
                simpa using (List.mem_filter.mp hr).2
              refine ⟨taskID, userID, task, hid, rfl, hu, hmem, htid, hcr, rfl, rfl, rfl, rfl,
                hgone, ?_, ?_⟩
              · intro r hr hne
                exact List.mem_filter.mpr ⟨hr, by simpa using hne⟩
              · intro fault' actor ha hf'
                have hnone : (db.tasks.filter (fun r => !(r.ID == taskID))).find?
                    (fun r => r.ID == taskID &&
                      (r.CreatorID == actor || r.AssigneeID == actor)) = none := by
                  rw [List.find?_eq_none]
                  intro r hr
                  simp [hgone r hr]
                simp [tasks.Get, hid, ha, hf', Store.firstTask, hnone, notVisible]

/-- C28, concrete instance: Alice deletes her task 7; Bob, who was its assignee, then gets 404
for it. -/
theorem Delete_success_removes_task_witness :
    tasks.Delete sampleStore noFaults "7" (some "alice-id") =
      (⟨200, .nodata "success" "Tarea eliminada exitosamente."⟩,
        { sampleStore with tasks := [] }) ∧
    tasks.Get { sampleStore with tasks := [] } noFaults "7" (some "bob-id") =
      (notVisible, { sampleStore with tasks := [] }) := by
  have hd : tasks.Delete sampleStore noFaults "7" (some "alice-id") =
      (⟨200, .nodata "success" "Tarea eliminada exitosamente."⟩,
        { sampleStore with tasks := [] }) := by decide
  obtain ⟨_, _, _, _, _, _, _, _, _, _, _, _, _, _, _, hget⟩ :=
    Delete_success_removes_task sampleStore noFaults "7" (some "alice-id") _ _ hd rfl
  exact ⟨hd, hget noFaults "bob-id" (by decide) rfl⟩


/-- C23: whenever `Update`, called with a request that has at least one non-empty field
(non-zero for `due_date`) for the id of the stored task `t` (ids unique), answers 200, the
actor is the creator of `t`, and the store afterwards holds, in the place of `t`, a task
with the same id, creator and creation time in which each of title, description, due_date,
status, priority and assignee_id has the request's value when that is non-empty and the
value it had in `t` otherwise; every other task and every user is unchanged. -/
theorem Update_success_writes_fields (db : Store) (fault : Faults) (now : Time) (id : String)
    (taskID : Nat) (userID : String) (req : TaskRequest) (t : TaskRow) (resp : Response)
    (db' : Store)
    (hid : ParseUint id 32 = some taskID)
    (hnodup : (db.tasks.map (fun r => r.ID)).Nodup)
    (ht : t ∈ db.tasks) (htid : t.ID = taskID)
    (hne : req.Title ≠ "" ∨ req.Description ≠ "" ∨ req.DueDate ≠ 0 ∨ req.Status ≠ "" ∨
      req.Priority ≠ "" ∨ req.AssigneeID ≠ "")
    (h : tasks.Update db fault now id (some userID) (some req) = (resp, db'))
    (hs : resp.status = 200) :
    t.CreatorID = userID ∧
    ∃ t' : TaskRow,
      db'.tasks = db.tasks.map (fun r => if r.ID = taskID then t' else r) ∧
      t' ∈ db'.tasks ∧
      t'.ID = t.ID ∧ t'.CreatorID = t.CreatorID ∧ t'.CreatedAt = t.CreatedAt ∧
      t'.Title = (if req.Title = "" then t.Title else req.Title) ∧
      t'.Description = (if req.Description = "" then t.Description else req.Description) ∧
      t'.DueDate = (if req.DueDate = 0 then t.DueDate else req.DueDate) ∧
      t'.Status = (if req.Status = "" then t.Status else req.Status) ∧
      t'.Priority = (if req.Priority = "" then t.Priority else req.Priority) ∧
      t'.AssigneeID = (if req.AssigneeID = "" then t.AssigneeID else req.AssigneeID) ∧
      (∀ r ∈ db.tasks, r.ID ≠ taskID → r ∈ db'.tasks) ∧
      db'.users = db.users ∧ db'.nextTaskID = db.nextTaskID := by
  have hnonempty : (updatesOf req).nonEmpty = true := by
    simp only [Updates.nonEmpty, updatesOf]
    rcases hne with h | h | h | h | h | h <;> simp [h]
  simp only [tasks.Update, hid, hnonempty, if_true] at h
  split at h
  · obtain ⟨rfl, rfl⟩ := Prod.mk.inj h; simp [unauthenticated] at hs
  · split at h
    · obtain ⟨rfl, rfl⟩ := Prod.mk.inj h; simp at hs
    · obtain ⟨rfl, rfl⟩ := Prod.mk.inj h; simp at hs
    · rename_i task hfind
      obtain ⟨hmem, htid', hcr⟩ := firstTask_creator_ok hfind
      have htask : task = t := row_eq_of_id_eq hnodup hmem ht (htid'.trans htid.symm)
      subst htask
      split at h
      · rename_i r hr
        obtain ⟨rfl, rfl⟩ := Prod.mk.inj h
        rcases newAssigneeCheck_some hr with h' | h' <;> simp [h'] at hs
      · split at h
        · obtain ⟨rfl, rfl⟩ := Prod.mk.inj h; simp at hs
        · rename_i db1 hupd
          have hupd := updateTask_ok hupd
          subst hupd
          · split at h
            · obtain ⟨rfl, rfl⟩ := Prod.mk.inj h; simp at hs
            · obtain ⟨rfl, rfl⟩ := Prod.mk.inj h
              have hmap : db.tasks.map
                  (fun r => if r.ID == task.ID then (updatesOf req).apply now r else r) =
                  db.tasks.map
                    (fun r => if r.ID = taskID then (updatesOf req).apply now task else r) := by
                apply List.map_congr_left
                intro r hr
                by_cases hrid : r.ID = taskID
                · have : r = task := row_eq_of_id_eq hnodup hr ht (hrid.trans htid.symm)
                  subst this
                  simp [htid]
                · have : ¬ r.ID = task.ID := by rw [htid]; exact hrid
                  simp [hrid, this]
              refine ⟨hcr, (updatesOf req).apply now task, hmap, ?_, rfl, rfl, rfl,
                ?_, ?_, ?_, ?_, ?_, ?_, ?_, rfl, rfl⟩
              · show _ ∈ db.tasks.map _
                rw [hmap, List.mem_map]
                exact ⟨task, ht, by simp [htid]⟩
              · by_cases e : req.Title = "" <;> simp [Updates.apply, updatesOf, e]
              · by_cases e : req.Description = "" <;> simp [Updates.apply, updatesOf, e]
              · by_cases e : req.DueDate = 0 <;> simp [Updates.apply, updatesOf, e]
              · by_cases e : req.Status = "" <;> simp [Updates.apply, updatesOf, e]
              · by_cases e : req.Priority = "" <;> simp [Updates.apply, updatesOf, e]
              · by_cases e : req.AssigneeID = "" <;> simp [Updates.apply, updatesOf, e]
              · intro r hr hrid
                show _ ∈ db.tasks.map _
                rw [hmap, List.mem_map]
                exact ⟨r, hr, by simp [hrid]⟩

/-- C23, concrete instance: Alice gives her task 7 a new title and the status "complete". -/
theorem Update_success_writes_fields_witness :
    (tasks.Update sampleStore noFaults 50 "7" (some "alice-id")
      (some ⟨"Nuevo", "", "complete", "", 0, ""⟩)).1.status = 200 ∧
    (tasks.Update sampleStore noFaults 50 "7" (some "alice-id")
      (some ⟨"Nuevo", "", "complete", "", 0, ""⟩)).2.tasks =
      [{ sampleRow with Title := "Nuevo", Status := "complete", UpdatedAt := 50 }] ∧
    sampleRow.CreatorID = "alice-id" ∧
    ∃ t' : TaskRow,
      (tasks.Update sampleStore noFaults 50 "7" (some "alice-id")
        (some ⟨"Nuevo", "", "complete", "", 0, ""⟩)).2.tasks =
        sampleStore.tasks.map (fun r => if r.ID = 7 then t' else r) ∧
      t'.Title = "Nuevo" ∧ t'.Description = sampleRow.Description ∧
      t'.Status = "complete" ∧ t'.Priority = sampleRow.Priority ∧
      t'.DueDate = sampleRow.DueDate ∧ t'.AssigneeID = sampleRow.AssigneeID := by
  have h := Update_success_writes_fields sampleStore noFaults 50 "7" 7 "alice-id"
    ⟨"Nuevo", "", "complete", "", 0, ""⟩ sampleRow _ _
    (by decide) (by decide) (by decide) rfl (by decide) rfl (by decide)
  obtain ⟨hc, t', h1, _, _, _, _, h2, h3, h4, h5, h6, h7, _⟩ := h
  exact ⟨by decide, by decide, hc, t', h1, h2, h3, h5, h6, h4, h7⟩


/-! ### Status and priority values (Handler.Create, Handler.Update) -/

/-- C24, the behaviour of the code: Alice creates a task with the status "archived" and the
priority "urgent", values outside the two lists of the `validate` tags; `Create` answers 201
and the row is stored with them. Alice then sends the status "done" and the priority "none"
for her task 7; `Update` answers 200 and the stored task has them. The same holds for every
non-empty pair of values. -/
theorem Create_Update_store_unlisted_status :
    "archived" ∉ taskStatuses ∧ "urgent" ∉ taskPriorities ∧
    "done" ∉ taskStatuses ∧ "none" ∉ taskPriorities ∧
    tasks.Create sampleStore noFaults 20
        (some { sampleRequest with Status := "archived", Priority := "urgent" })
        (some "alice-id") =
      (⟨201, .task "success" "Tarea creada exitosamente."
        { ID := 8, Title := "Informe", Description := "Escribir el informe",
          Status := "archived", Priority := "urgent", DueDate := 1000,
          CreatorID := "alice-id", AssigneeID := "alice-id",
          Creator := sampleUser "alice-id" "alice@x.com",
          Assignee := sampleUser "alice-id" "alice@x.com", CreatedAt := 20, UpdatedAt := 20 }⟩,
       { sampleStore with
         tasks := [sampleRow,
           { ID := 8, Title := "Informe", Description := "Escribir el informe",
             Status := "archived", Priority := "urgent", DueDate := 1000,
             CreatorID := "alice-id", AssigneeID := "alice-id",
             CreatedAt := 20, UpdatedAt := 20 }],
         nextTaskID := 9 }) ∧
    (tasks.Update sampleStore noFaults 50 "7" (some "alice-id")
        (some ⟨"", "", "done", "none", 0, ""⟩)).1.status = 200 ∧
    (tasks.Update sampleStore noFaults 50 "7" (some "alice-id")
        (some ⟨"", "", "done", "none", 0, ""⟩)).2.tasks =
      [{ sampleRow with Status := "done", Priority := "none", UpdatedAt := 50 }] ∧
    (∀ s p : String, s ≠ "" → p ≠ "" →
      (tasks.Create sampleStore noFaults 20
        (some { sampleRequest with Status := s, Priority := p }) (some "alice-id")).1.status
          = 201 ∧
      (tasks.Create sampleStore noFaults 20
        (some { sampleRequest with Status := s, Priority := p }) (some "alice-id")).2.tasks =
        [sampleRow,
          { ID := 8, Title := "Informe", Description := "Escribir el informe",
            Status := s, Priority := p, DueDate := 1000,
            CreatorID := "alice-id", AssigneeID := "alice-id",
            CreatedAt := 20, UpdatedAt := 20 }] ∧
      (tasks.Update sampleStore noFaults 50 "7" (some "alice-id")
        (some ⟨"", "", s, p, 0, ""⟩)).1.status = 200 ∧
      (tasks.Update sampleStore noFaults 50 "7" (some "alice-id")
        (some ⟨"", "", s, p, 0, ""⟩)).2.tasks =
        [{ sampleRow with Status := s, Priority := p, UpdatedAt := 50 }]) := by
  refine ⟨by decide, by decide, by decide, by decide, by decide, by decide, by decide, ?_⟩
  intro s p hs hp
  have h7 : ParseUint "7" 32 = some 7 := by decide
  have hne : (updatesOf ⟨"", "", s, p, 0, ""⟩).nonEmpty = true := by
    simp [Updates.nonEmpty, updatesOf, hs]
  refine ⟨?_, ?_, ?_, ?_⟩
  · simp [tasks.Create, sampleRequest, sampleStore, noFaults, Store.createTask,
      Store.firstTask, sampleRow, sampleUser, hs, hp]
  · simp [tasks.Create, sampleRequest, sampleStore, noFaults, Store.createTask,
      Store.firstTask, sampleRow, sampleUser, hs, hp]
  · simp [tasks.Update, h7, sampleStore, noFaults, Store.updateTask,
      Store.firstTask, sampleRow, Updates.apply, updatesOf, hs, hp, Updates.nonEmpty]
  · simp [tasks.Update, h7, sampleStore, noFaults, Store.updateTask,
      Store.firstTask, sampleRow, Updates.apply, updatesOf, hs, hp, Updates.nonEmpty]


/-! ### Failed registrations and the store -/

/-- C30, the behaviour of the code: with the configured expiry "soon", which is no duration,
the valid registration of Dave gets 500 "Error al generar token", a status other than 201,
and the store after the call holds the new user: it is not the store before the call. -/
theorem Register_token_failure_keeps_user :
    auth.Register sampleEnv { sampleConfig with JWTExpiry := "soon" } sampleStore noFaults
        (some sampleRegistration) =
      (⟨500, .failure "Error al generar token"⟩,
       { sampleStore with
         users := sampleStore.users ++
           [{ ID := "dave-id", FirstName := "Dave", LastName := "Ruiz", Email := "dave@x.com",
              PasswordHash := "hash-of-secret4", CreatedAt := 1700000000000000000,
              UpdatedAt := 1700000000000000000 }] }) ∧
    (auth.Register sampleEnv { sampleConfig with JWTExpiry := "soon" } sampleStore noFaults
        (some sampleRegistration)).1.status ≠ 201 ∧
    (auth.Register sampleEnv { sampleConfig with JWTExpiry := "soon" } sampleStore noFaults
        (some sampleRegistration)).2 ≠ sampleStore := by
  decide

/-- What a successful insert of a user returns: the store with the new row at the end, and
that row, which has the names and the email of the given one. -/
theorem createUser_ok {db db1 : Store} {f : Bool} {uuid : String} {u created : User}
    (h : db.createUser f uuid u = .ok (db1, created)) :
    created.Email = u.Email ∧ created.FirstName = u.FirstName ∧
    created.LastName = u.LastName ∧
    db1 = { db with users := db.users ++ [created] } := by
  simp only [Store.createUser] at h
  split_ifs at h
  all_goals first
    | (cases h; done)
    | (cases h; exact ⟨rfl, rfl, rfl, rfl⟩)

/-- C30 (as amended): whenever `Register` responds with a status other than 201 and the
response is not the 500 "Error al generar token" one (so after a body that does not decode,
a validation failure, a duplicate email, a hashing failure or a store failure), the store
after the call equals the store before it; and whenever the response is the 500 "Error al
generar token" one, the store after the call is the store before it with the new user, who
has the email of the request, added at the end. -/
theorem Register_failure_keeps_store (env : AuthEnv) (cfg : Config) (db : Store)
    (fault : Faults) (body : Option RegisterRequest) (resp : Response) (db' : Store)
    (h : auth.Register env cfg db fault body = (resp, db')) :
    (resp.status ≠ 201 → resp ≠ ⟨500, .failure "Error al generar token"⟩ → db' = db) ∧
    (resp = ⟨500, .failure "Error al generar token"⟩ →
      ∃ req u, body = some req ∧ u.Email = req.Email ∧ u.FirstName = req.FirstName ∧
        u.LastName = req.LastName ∧
        db' = { db with users := db.users ++ [u] }) := by
  simp only [auth.Register] at h
  split at h
  · rename_i r hv
    obtain ⟨rfl, rfl⟩ := Prod.mk.inj h
    refine ⟨fun _ _ => rfl, ?_⟩
    intro hr
    exfalso
    simp only [auth.Register.validate] at hv
    repeat' split at hv
    all_goals first
      | (cases hv; done)
      | (simp only [Except.error.injEq] at hv
         subst hv
         simp [auth.invalidJSON, auth.duplicateEmail] at hr)
  · rename_i req hv
    have hbody : body = some req := by
      simp only [auth.Register.validate] at hv
      repeat' split at hv
      all_goals first
        | (cases hv; done)
        | (simp only [Except.ok.injEq] at hv; subst hv; rfl)
    simp only [auth.Register.persist] at h
    split at h
    · obtain ⟨rfl, rfl⟩ := Prod.mk.inj h
      exact ⟨fun _ _ => rfl, fun hr => by simp at hr⟩
    · split at h
      · obtain ⟨rfl, rfl⟩ := Prod.mk.inj h
        exact ⟨fun _ _ => rfl, fun hr => by simp at hr⟩
      · rename_i db1 created hcreate
        obtain ⟨he, hfn, hln, hdb1⟩ := createUser_ok hcreate
        split at h
        · obtain ⟨rfl, rfl⟩ := Prod.mk.inj h
          exact ⟨fun _ hne => absurd rfl hne,
            fun _ => ⟨req, created, hbody, he, hfn, hln, hdb1⟩⟩
        · obtain ⟨rfl, rfl⟩ := Prod.mk.inj h
          exact ⟨fun hs => absurd rfl hs, fun hr => by simp at hr⟩

/-- C30 (as amended), concrete instance: a registration with a one-letter first name gets 400
and leaves the store as it was. -/
theorem Register_failure_keeps_store_witness :
    (auth.Register sampleEnv sampleConfig sampleStore noFaults
        (some { sampleRegistration with FirstName := "D" })).1 =
      ⟨400, .failure "El nombre debe tener entre 2 y 50 caracteres"⟩ ∧
    (auth.Register sampleEnv sampleConfig sampleStore noFaults
        (some { sampleRegistration with FirstName := "D" })).2 = sampleStore :=
  ⟨by decide,
    (Register_failure_keeps_store sampleEnv sampleConfig sampleStore noFaults
      (some { sampleRegistration with FirstName := "D" }) _ _ rfl).1
      (by decide) (by decide)⟩


/-! ### The name-length checks of Register -/

/-- A text of one-byte characters has as many bytes as characters. -/
theorem flatMap_utf8EncodeChar_length (l : List Char) (h : ∀ c ∈ l, c.toNat ≤ 0x7f) :
    (l.flatMap utf8EncodeChar).length = l.length := by
  induction l with
  | nil => rfl
  | cons c l ih =>
    have hc : c.toNat ≤ 0x7f := h c (List.mem_cons_self c l)
    have hl : ∀ x ∈ l, x.toNat ≤ 0x7f := fun x hx => h x (List.mem_cons_of_mem c hx)
    simp [List.flatMap_cons, utf8EncodeChar, hc, ih hl]

/-- The Go builtin `len` on a string of one-byte characters is its number of characters. -/
theorem goLen_of_ascii (s : String) (h : ∀ c ∈ s.data, c.toNat ≤ 0x7f) :
    goLen s = s.length :=
  flatMap_utf8EncodeChar_length s.data h

/-- Every character of the trimmed string is a character of the string. -/
theorem mem_of_mem_TrimSpace {s : String} {c : Char} (h : c ∈ (TrimSpace s).data) :
    c ∈ s.data := by
  simp only [TrimSpace, List.mem_reverse] at h
  exact (List.dropWhile_sublist isSpace).subset
    (List.mem_reverse.mp ((List.dropWhile_sublist isSpace).subset h))

/-- C25, the behaviour of the code: the first name "J " has two characters and the last name
"Ruiz" four, yet the name-length check fails, because the lower bound is taken after
`strings.TrimSpace`: Register responds 400 with the "entre 2 y 50 caracteres" message. -/
theorem Register_padded_name_fails_length_check :
    ("J ".length = 2 ∧ "Ruiz".length = 4) ∧
    auth.Register sampleEnv sampleConfig sampleStore noFaults
        (some { sampleRegistration with FirstName := "J " }) =
      (⟨400, .failure "El nombre debe tener entre 2 y 50 caracteres"⟩, sampleStore) := by
  decide

/-- The name-length checks on texts with characters of more than one byte: `len` counts
bytes, so the one-letter first name "Ñ" (two bytes) passes them and is registered, and a
first name of 26 letters "é" (52 bytes) fails them. -/
theorem Register_name_length_counts_bytes :
    "Ñ".length = 1 ∧
    (auth.Register sampleEnv sampleConfig sampleStore noFaults
      (some { sampleRegistration with FirstName := "Ñ" })).1.status = 201 ∧
    (String.mk (List.replicate 26 'é')).length = 26 ∧
    auth.Register sampleEnv sampleConfig sampleStore noFaults
        (some { sampleRegistration with FirstName := String.mk (List.replicate 26 'é') }) =
      (⟨400, .failure "El nombre debe tener entre 2 y 50 caracteres"⟩, sampleStore) := by
  decide

/-- C25 (as amended): for every registration request whose first and last name consist of
one-byte characters, the name-length checks of `Register` pass, that is the response is
neither of the two "entre 2 y 50 caracteres" ones, iff each of the two names has at least 2
characters once the white space around it is trimmed and at most 50 characters as sent;
otherwise `Register` responds 400 with the "entre 2 y 50 caracteres" message of the first
failing name and the store is unchanged. -/
theorem Register_name_length_checks (env : AuthEnv) (cfg : Config) (db : Store)
    (fault : Faults) (req : RegisterRequest)
    (hF : ∀ c ∈ req.FirstName.data, c.toNat ≤ 0x7f)
    (hL : ∀ c ∈ req.LastName.data, c.toNat ≤ 0x7f) :
    (((2 ≤ (TrimSpace req.FirstName).length ∧ req.FirstName.length ≤ 50) ∧
      (2 ≤ (TrimSpace req.LastName).length ∧ req.LastName.length ≤ 50)) ↔
      ((auth.Register env cfg db fault (some req)).1 ≠
          ⟨400, .failure "El nombre debe tener entre 2 y 50 caracteres"⟩ ∧
        (auth.Register env cfg db fault (some req)).1 ≠
          ⟨400, .failure "El apellido debe tener entre 2 y 50 caracteres"⟩)) ∧
    (¬ (2 ≤ (TrimSpace req.FirstName).length ∧ req.FirstName.length ≤ 50) →
      auth.Register env cfg db fault (some req) =
        (⟨400, .failure "El nombre debe tener entre 2 y 50 caracteres"⟩, db)) ∧
    ((2 ≤ (TrimSpace req.FirstName).length ∧ req.FirstName.length ≤ 50) →
      ¬ (2 ≤ (TrimSpace req.LastName).length ∧ req.LastName.length ≤ 50) →
      auth.Register env cfg db fault (some req) =
        (⟨400, .failure "El apellido debe tener entre 2 y 50 caracteres"⟩, db)) := by
  have e1 : goLen (TrimSpace req.FirstName) = (TrimSpace req.FirstName).length :=
    goLen_of_ascii _ (fun c hc => hF c (mem_of_mem_TrimSpace hc))
  have e2 : goLen req.FirstName = req.FirstName.length := goLen_of_ascii _ hF
  have e3 : goLen (TrimSpace req.LastName) = (TrimSpace req.LastName).length :=
    goLen_of_ascii _ (fun c hc => hL c (mem_of_mem_TrimSpace hc))
  have e4 : goLen req.LastName = req.LastName.length := goLen_of_ascii _ hL
  have hfirst : ¬ (2 ≤ (TrimSpace req.FirstName).length ∧ req.FirstName.length ≤ 50) →
      auth.Register env cfg db fault (some req) =
        (⟨400, .failure "El nombre debe tener entre 2 y 50 caracteres"⟩, db) := by
    intro h
    have : goLen (TrimSpace req.FirstName) < 2 ∨ goLen req.FirstName > 50 := by
      rw [e1, e2]; omega
    simp [auth.Register, auth.Register.validate, this]
  have hlast : (2 ≤ (TrimSpace req.FirstName).length ∧ req.FirstName.length ≤ 50) →
      ¬ (2 ≤ (TrimSpace req.LastName).length ∧ req.LastName.length ≤ 50) →
      auth.Register env cfg db fault (some req) =
        (⟨400, .failure "El apellido debe tener entre 2 y 50 caracteres"⟩, db) := by
    intro h h'
    have h1 : ¬ (goLen (TrimSpace req.FirstName) < 2 ∨ goLen req.FirstName > 50) := by
      rw [e1, e2]; omega
    have h2 : goLen (TrimSpace req.LastName) < 2 ∨ goLen req.LastName > 50 := by
      rw [e3, e4]; omega
    simp [auth.Register, auth.Register.validate, h1, h2]
  refine ⟨⟨?_, ?_⟩, hfirst, hlast⟩
  · rintro ⟨h, h'⟩
    have h1 : ¬ (goLen (TrimSpace req.FirstName) < 2 ∨ goLen req.FirstName > 50) := by
      rw [e1, e2]; omega
    have h2 : ¬ (goLen (TrimSpace req.LastName) < 2 ∨ goLen req.LastName > 50) := by
      rw [e3, e4]; omega
    simp only [auth.Register, auth.Register.validate, auth.Register.persist, h1, h2, if_false]
    constructor <;>
    · repeat' split
      all_goals first
        | (simp; done)
        | (rename_i hv; revert hv; repeat' split
           all_goals first
             | (simp [auth.duplicateEmail]; done)
             | (intro hv; cases hv; simp [auth.duplicateEmail]))
  · rintro ⟨n1, n2⟩
    by_contra hnot
    by_cases h : 2 ≤ (TrimSpace req.FirstName).length ∧ req.FirstName.length ≤ 50
    · have h' : ¬ (2 ≤ (TrimSpace req.LastName).length ∧ req.LastName.length ≤ 50) :=
        fun h' => hnot ⟨h, h'⟩
      exact n2 (by rw [hlast h h'])
    · exact n1 (by rw [hfirst h])

/-- C25 (as amended), concrete instance: "Dave Ruiz" passes the name-length checks, and the
last name "R" fails them. -/
theorem Register_name_length_checks_witness :
    ((auth.Register sampleEnv sampleConfig sampleStore noFaults (some sampleRegistration)).1 ≠
        ⟨400, .failure "El nombre debe tener entre 2 y 50 caracteres"⟩ ∧
      (auth.Register sampleEnv sampleConfig sampleStore noFaults (some sampleRegistration)).1 ≠
        ⟨400, .failure "El apellido debe tener entre 2 y 50 caracteres"⟩) ∧
    auth.Register sampleEnv sampleConfig sampleStore noFaults
        (some { sampleRegistration with LastName := "R" }) =
      (⟨400, .failure "El apellido debe tener entre 2 y 50 caracteres"⟩, sampleStore) :=
  ⟨(Register_name_length_checks sampleEnv sampleConfig sampleStore noFaults sampleRegistration
      (by decide) (by decide)).1.mp (by decide),
    (Register_name_length_checks sampleEnv sampleConfig sampleStore noFaults
      { sampleRegistration with LastName := "R" } (by decide) (by decide)).2.2
      (by decide) (by decide)⟩


/-! ### The origin predicates of CORSMiddleware -/

/-- The words of a literal expression: the literal itself. -/
theorem mem_matches_foldr_char (l x : List Char) :
    x ∈ (l.foldr (fun c r => RegularExpression.char c * r) 1).matches' ↔ x = l := by
  induction l generalizing x with
  | nil => simp [Language.mem_one]
  | cons c l ih =>
    simp only [List.foldr_cons, RegularExpression.matches'_mul,
      RegularExpression.matches'_char, Language.mem_mul, ih]
    constructor
    · rintro ⟨a, ha, b, rfl, rfl⟩
      rw [Set.mem_singleton_iff.mp ha]
      rfl
    · rintro rfl
      exact ⟨[c], rfl, l, rfl, rfl⟩

/-- The words of `lit s`: the characters of `s`. -/
theorem mem_matches_lit (s : String) (x : List Char) :
    x ∈ (lit s).matches' ↔ x = s.data :=
  mem_matches_foldr_char s.data x

/-- The words of a character class: its members, one character each. -/
theorem mem_matches_foldr_class (l x : List Char) :
    x ∈ (l.foldr (fun c r => RegularExpression.char c + r) 0).matches' ↔
      ∃ c ∈ l, x = [c] := by
  induction l with
  | nil => simp [Language.not_mem_zero]
  | cons c l ih =>
    simp only [List.foldr_cons, RegularExpression.matches'_add,
      RegularExpression.matches'_char, Language.mem_add, ih, List.mem_cons]
    constructor
    · rintro (h | ⟨d, hd, rfl⟩)
      · exact ⟨c, Or.inl rfl, Set.mem_singleton_iff.mp h⟩
      · exact ⟨d, Or.inr hd, rfl⟩
    · rintro ⟨d, rfl | hd, rfl⟩
      · exact Or.inl rfl
      · exact Or.inr ⟨d, hd, rfl⟩

/-- The words of `oneOf cs`. -/
theorem mem_matches_oneOf (cs : String) (x : List Char) :
    x ∈ (oneOf cs).matches' ↔ ∃ c ∈ cs.data, x = [c] :=
  mem_matches_foldr_class cs.data x

/-- The words of the iteration of a character class: the texts over the class. -/
theorem mem_matches_star_oneOf (cs : String) (x : List Char) :
    x ∈ (oneOf cs).star.matches' ↔ ∀ c ∈ x, c ∈ cs.data := by
  rw [RegularExpression.matches'_star, Language.mem_kstar]
  constructor
  · rintro ⟨L, rfl, hL⟩ c hc
    rw [List.mem_flatten] at hc
    obtain ⟨y, hy, hcy⟩ := hc
    obtain ⟨d, hd, rfl⟩ := (mem_matches_oneOf cs y).mp (hL y hy)
    rw [List.mem_singleton.mp hcy]
    exact hd
  · intro h
    refine ⟨x.map (fun c => [c]), ?_, ?_⟩
    · clear h
      induction x with
      | nil => rfl
      | cons c x ih => simp [← ih]
    · intro y hy
      rw [List.mem_map] at hy
      obtain ⟨c, hc, rfl⟩ := hy
      exact (mem_matches_oneOf cs [c]).mpr ⟨c, h c hc, rfl⟩

/-- The words of "e+" for a character class: the non-empty texts over the class. -/
theorem mem_matches_many1_oneOf (cs : String) (x : List Char) :
    x ∈ (many1 (oneOf cs)).matches' ↔ x ≠ [] ∧ ∀ c ∈ x, c ∈ cs.data := by
  simp only [many1, RegularExpression.matches'_mul, Language.mem_mul]
  constructor
  · rintro ⟨a, ha, b, hb, rfl⟩
    obtain ⟨c, hc, rfl⟩ := (mem_matches_oneOf cs a).mp ha
    refine ⟨by simp, ?_⟩
    intro d hd
    rcases List.mem_append.mp hd with h | h
    · rw [List.mem_singleton.mp h]; exact hc
    · exact (mem_matches_star_oneOf cs b).mp hb d h
  · rintro ⟨hne, h⟩
    cases x with
    | nil => exact absurd rfl hne
    | cons c x =>
      exact ⟨[c], (mem_matches_oneOf cs [c]).mpr ⟨c, h c (List.mem_cons_self c x), rfl⟩, x,
        (mem_matches_star_oneOf cs x).mpr (fun d hd => h d (List.mem_cons_of_mem c hd)), rfl⟩

/-- The words of the head "https?://". -/
theorem mem_matches_scheme (x : List Char) :
    x ∈ scheme.matches' ↔ x = "http://".data ∨ x = "https://".data := by
  simp only [scheme, opt, RegularExpression.matches'_mul, RegularExpression.matches'_add,
    RegularExpression.matches'_char, RegularExpression.matches'_epsilon, Language.mem_mul,
    Language.mem_add, Language.mem_one, mem_matches_lit]
  constructor
  · rintro ⟨a, ⟨b, rfl, c, hc, rfl⟩, d, rfl, rfl⟩
    rcases hc with hc | rfl
    · rw [Set.mem_singleton_iff.mp hc]; exact Or.inr rfl
    · exact Or.inl rfl
  · rintro (rfl | rfl)
    · exact ⟨"http".data, ⟨"http".data, rfl, [], Or.inr rfl, rfl⟩, "://".data, rfl, rfl⟩
    · exact ⟨"https".data, ⟨"http".data, rfl, ['s'], Or.inl rfl, rfl⟩, "://".data, rfl, rfl⟩

/-- The words of the tail "(:\d+)?": nothing, or a colon and one or more digits. -/
theorem mem_matches_port (x : List Char) :
    x ∈ port.matches' ↔
      x = [] ∨ ∃ ds : List Char, ds ≠ [] ∧ (∀ c ∈ ds, c ∈ "0123456789".data) ∧ x = ':' :: ds := by
  simp only [port, opt, digit, RegularExpression.matches'_mul, RegularExpression.matches'_add,
    RegularExpression.matches'_char, RegularExpression.matches'_epsilon, Language.mem_mul,
    Language.mem_add, Language.mem_one, mem_matches_many1_oneOf]
  constructor
  · rintro (⟨a, ha, b, ⟨hne, hb⟩, rfl⟩ | rfl)
    · rw [Set.mem_singleton_iff.mp ha]
      exact Or.inr ⟨b, hne, hb, rfl⟩
    · exact Or.inl rfl
  · rintro (rfl | ⟨ds, hne, hds, rfl⟩)
    · exact Or.inr rfl
    · exact Or.inl ⟨[':'], rfl, ds, ⟨hne, hds⟩, rfl⟩

/-- What `localhostPattern` matches. -/
theorem localhostPattern_MatchString (s : String) :
    localhostPattern.MatchString s = true ↔
      ∃ h p : List Char, (h = "http://".data ∨ h = "https://".data) ∧
        (p = [] ∨ ∃ ds : List Char, ds ≠ [] ∧ (∀ c ∈ ds, c ∈ "0123456789".data) ∧
          p = ':' :: ds) ∧
        s.data = h ++ "localhost".data ++ p := by
  simp only [localhostPattern, Regexp.MatchString, if_true,
    RegularExpression.rmatch_iff_matches', RegularExpression.matches'_mul, Language.mem_mul,
    mem_matches_scheme, mem_matches_port, mem_matches_lit]
  constructor
  · rintro ⟨a, ⟨h, hh, b, rfl, rfl⟩, p, hp, hs⟩
    exact ⟨h, p, hh, hp, hs.symm⟩
  · rintro ⟨h, p, hh, hp, hs⟩
    exact ⟨h ++ "localhost".data, ⟨h, hh, _, rfl, rfl⟩, p, hp, hs.symm⟩

/-- What `httpsPattern` matches: the texts that begin with "https://". -/
theorem httpsPattern_MatchString (s : String) :
    httpsPattern.MatchString s = true ↔ ∃ rest : String, s = "https://" ++ rest := by
  simp only [httpsPattern, Regexp.MatchString, Bool.false_eq_true, if_false, List.any_eq_true,
    List.mem_inits, RegularExpression.rmatch_iff_matches', mem_matches_lit]
  constructor
  · rintro ⟨x, ⟨t, ht⟩, rfl⟩
    exact ⟨String.mk t, String.ext (by simp [← ht])⟩
  · rintro ⟨rest, rfl⟩
    exact ⟨"https://".data, ⟨rest.data, by simp⟩, rfl⟩

/-- C27: the empty origin is accepted by `isProductionOrigin`, and for every non-empty origin
`isProductionOrigin` returns true iff the origin begins with "https://", or is exactly
"http://localhost" or "https://localhost", or is one of these two followed by ":" and one or
more digits. -/
theorem isProductionOrigin_iff (origin : String) (hne : origin ≠ "") :
    isProductionOrigin "" = true ∧
    (isProductionOrigin origin = true ↔
      (∃ rest : String, origin = "https://" ++ rest) ∨
      origin = "http://localhost" ∨ origin = "https://localhost" ∨
      ∃ digits : List Char, digits ≠ [] ∧ (∀ c ∈ digits, c ∈ "0123456789".data) ∧
        (origin = "http://localhost:" ++ String.mk digits ∨
          origin = "https://localhost:" ++ String.mk digits)) := by
  refine ⟨by simp [isProductionOrigin], ?_⟩
  simp only [isProductionOrigin, hne, if_false, Bool.or_eq_true, httpsPattern_MatchString,
    localhostPattern_MatchString]
  constructor
  · rintro (h | ⟨h, p, hh, hp, hs⟩)
    · exact Or.inl h
    · right
      rcases hh with rfl | rfl <;> rcases hp with rfl | ⟨ds, hds, hall, rfl⟩
      · exact Or.inl (String.ext (by simp [hs]))
      · exact Or.inr (Or.inr ⟨ds, hds, hall, Or.inl (String.ext (by simp [hs]))⟩)
      · exact Or.inr (Or.inl (String.ext (by simp [hs])))
      · exact Or.inr (Or.inr ⟨ds, hds, hall, Or.inr (String.ext (by simp [hs]))⟩)
  · rintro (h | rfl | rfl | ⟨ds, hds, hall, rfl | rfl⟩)
    · exact Or.inl h
    · exact Or.inr ⟨_, [], Or.inl rfl, Or.inl rfl, rfl⟩
    · exact Or.inr ⟨_, [], Or.inr rfl, Or.inl rfl, rfl⟩
    · exact Or.inr ⟨_, ':' :: ds, Or.inl rfl, Or.inr ⟨ds, hds, hall, rfl⟩, by simp⟩
    · exact Or.inr ⟨_, ':' :: ds, Or.inr rfl, Or.inr ⟨ds, hds, hall, rfl⟩, by simp⟩

/-- C27, concrete instance: "http://localhost:3000" is accepted, by the right-hand side of
the equivalence. -/
theorem isProductionOrigin_iff_witness :
    isProductionOrigin "" = true ∧ isProductionOrigin "http://localhost:3000" = true ∧
    isProductionOrigin "http://example.com" = false ∧
    isProductionOrigin "http://localhost:" = false ∧
    isProductionOrigin "http://localhost:80a" = false ∧
    isProductionOrigin "https://example.com" = true :=
  ⟨(isProductionOrigin_iff "http://localhost:3000" (by decide)).1,
    (isProductionOrigin_iff "http://localhost:3000" (by decide)).2.mpr
      (Or.inr (Or.inr (Or.inr ⟨"3000".data, by decide, by decide, Or.inl (by decide)⟩))),
    by decide, by decide, by decide, by decide⟩

/-- C26, the behaviour of the code: with CORS_ALLOWED_ORIGINS set to "*" and no variable
naming the development mode, `CORSMiddleware` installs as `AllowOriginsFunc` the function
`isAllowedOrigin` with the empty explicit list and the development flag off; it rejects
"https://app.example.com", and the empty origin is the only one it accepts. The same holds
for every environment with that value and outside development mode. -/
theorem CORSMiddleware_star_rejects_origins :
    (∃ f : String → Bool,
      CORSMiddleware (fun k => if k = "CORS_ALLOWED_ORIGINS" then "*" else "") =
        .AllowOriginsFunc f ∧
      f "https://app.example.com" = false ∧ f "http://localhost:3000" = false ∧
      (∀ origin, f origin = true ↔ origin = "")) ∧
    (∀ getenv : String → String, getenv "CORS_ALLOWED_ORIGINS" = "*" →
      getenv "ENV" ≠ "development" → getenv "NODE_ENV" ≠ "development" →
      getenv "GO_ENV" ≠ "development" →
      CORSMiddleware getenv = .AllowOriginsFunc (fun origin => isAllowedOrigin origin [] false) ∧
      ∀ origin, isAllowedOrigin origin [] false = true ↔ origin = "") := by
  have hall : ∀ origin, isAllowedOrigin origin [] false = true ↔ origin = "" := by
    intro origin
    by_cases h : origin = "" <;> simp [isAllowedOrigin, h]
  constructor
  · refine ⟨fun origin => isAllowedOrigin origin [] false, ?_, by decide, by decide, hall⟩
    simp [CORSMiddleware]
  · intro getenv hstar h1 h2 h3
    refine ⟨?_, hall⟩
    have e1 : (getenv "ENV" == "development") = false := beq_eq_false_iff_ne.mpr h1
    have e2 : (getenv "NODE_ENV" == "development") = false := beq_eq_false_iff_ne.mpr h2
    have e3 : (getenv "GO_ENV" == "development") = false := beq_eq_false_iff_ne.mpr h3
    simp [CORSMiddleware, hstar, e1, e2, e3]

end Legendaryum
